import Mathlib

/-!
# Admission validation of ScaledJob resources

A shallow embedding of `apis/keda/v1alpha1/scaledjob_webhook.go`.

* Go pointers are `Option` values (`none` is the nil pointer).
* A Go call either returns or panics; the effects it has on the outside world
  (log records, calls to the trigger validator) are collected, in order, in a
  trace that is kept when the call panics.
* Functions the file calls but does not define (`json.MarshalIndent`,
  `admission.RequestFromContext`, `verifyTriggers`) are fields of an
  environment `Env`; the types declared elsewhere (`ScaledJobSpec`,
  `ScaledJobStatus`, `context.Context`) are type parameters.
-/

namespace Keda

/-! ## Go values -/

/-- A Go `error` value that is not nil, identified by its message. -/
abbrev GoError := String

/-- Run-time panics that the code of this file can raise. -/
inductive Panic where
  /-- A type assertion `x.(*ScaledJob)` on an interface value of another
  dynamic type, or on the nil interface. -/
  | typeAssertion
  /-- A dereference of a nil pointer. -/
  | nilDereference
deriving DecidableEq, Repr

/-- The result pair `([]byte, error)` of `json.MarshalIndent`: the bytes on
success, the error otherwise (the byte slice is nil in that case). -/
abbrev MarshalResult := Except GoError String

/-- The pattern `val, _ := json.MarshalIndent(..)` followed by `string(val)`:
the error is discarded, and the nil slice of a failed call converts to the
empty string. -/
def bytesToString : MarshalResult → String
  | .ok b => b
  | .error _ => ""

/-- The value `admission.Warnings` (a `[]string`); `none` is the nil slice. -/
abbrev Warnings := Option (List String)

/-! ## Data model -/

/-- The fields of `metav1.ObjectMeta` that identify and decorate an object. -/
structure ObjectMeta where
  Name : String
  Namespace : String
  Labels : List (String × String)
  Annotations : List (String × String)
  OwnerReferences : List String
  Finalizers : List String
deriving DecidableEq, Repr

/-- The fields of `metav1.TypeMeta`. -/
structure TypeMeta where
  Kind : String
  APIVersion : String
deriving DecidableEq, Repr

/-- The resource `ScaledJob`, over the types of its specification and
status. -/
structure ScaledJob (Spec Status : Type) where
  TypeMeta : TypeMeta
  ObjectMeta : ObjectMeta
  Spec : Spec
  Status : Status
deriving DecidableEq, Repr

/-- A value of the interface `runtime.Object`, by its dynamic type. -/
inductive RuntimeObject (Spec Status : Type) where
  /-- The nil interface value. -/
  | nil
  /-- A `*ScaledJob`, which may be the nil pointer. -/
  | scaledJob (p : Option (ScaledJob Spec Status))
  /-- A value of any other dynamic type, named by `typeName`. -/
  | other (typeName : String)
deriving DecidableEq, Repr

/-- The part of `admission.Request` that is read here: `DryRun *bool`. -/
structure Request where
  DryRun : Option Bool
deriving DecidableEq, Repr

/-- The two loggers written to. -/
inductive Logger where
  | scaledjoblog
  | scaledobjectlog
deriving DecidableEq, Repr

/-- An effect on the outside world. -/
inductive Event (Spec Status : Type) where
  /-- The call `logger.V(verbosity).Info(msg)`. -/
  | log (logger : Logger) (verbosity : Nat) (msg : String)
  /-- The call `verifyTriggers(obj, action, dryRun)`. -/
  | verifyTriggers (obj : Option (ScaledJob Spec Status)) (action : String) (dryRun : Bool)
deriving DecidableEq, Repr

/-- The collaborators of the webhook that are defined outside the file. -/
structure Env (Ctx Spec Status : Type) where
  /-- The function `admission.RequestFromContext`. -/
  RequestFromContext : Ctx → Except GoError Request
  /-- The call `json.MarshalIndent(s, "", "  ")` on a `*ScaledJob`. -/
  marshalIndentScaledJob : Option (ScaledJob Spec Status) → MarshalResult
  /-- The call `json.MarshalIndent(spec, "", "  ")` on a `ScaledJobSpec`. -/
  marshalIndentSpec : Spec → MarshalResult
  /-- The trigger validator `verifyTriggers`: `none` is the nil error. -/
  verifyTriggers : Option (ScaledJob Spec Status) → String → Bool → Option GoError

/-! ## Execution of Go code -/

/-- A finished Go call: the effects it had, and its return value or panic. -/
structure Run (Spec Status α : Type) where
  trace : List (Event Spec Status)
  result : Except Panic α

namespace Run

variable {Spec Status α β : Type}

/-- Return without an effect. -/
def ret (a : α) : Run Spec Status α := ⟨[], .ok a⟩

/-- Run `m`, then `f` on its value; a panic of `m` ends the call. -/
def andThen (m : Run Spec Status α) (f : α → Run Spec Status β) : Run Spec Status β :=
  match m.result with
  | .error p => ⟨m.trace, .error p⟩
  | .ok a => ⟨m.trace ++ (f a).trace, (f a).result⟩

instance : Monad (Run Spec Status) where
  pure := ret
  bind := andThen

/-- Perform one effect. -/
def emit (e : Event Spec Status) : Run Spec Status Unit := ⟨[e], .ok ()⟩

/-- Raise a panic. -/
def raise (p : Panic) : Run Spec Status α := ⟨[], .error p⟩

/-- The dereference `*p`, and the field access `p.f` through a pointer. -/
def deref : Option α → Run Spec Status α
  | some a => ret a
  | none => raise .nilDereference

end Run

/-- The type assertion `obj.(*ScaledJob)`. -/
def assertScaledJob {Spec Status : Type} :
    RuntimeObject Spec Status → Run Spec Status (Option (ScaledJob Spec Status))
  | .scaledJob p => Run.ret p
  | .nil => Run.raise .typeAssertion
  | .other _ => Run.raise .typeAssertion

/-- A call of the trigger validator, recorded in the trace. -/
def callVerifyTriggers {Ctx Spec Status : Type} (E : Env Ctx Spec Status)
    (obj : Option (ScaledJob Spec Status)) (action : String) (dryRun : Bool) :
    Run Spec Status (Option GoError) :=
  ⟨[.verifyTriggers obj action dryRun], .ok (E.verifyTriggers obj action dryRun)⟩

/-- The calls of the trigger validator in a trace, in order. -/
def validatorCalls {Spec Status : Type} :
    List (Event Spec Status) → List (Option (ScaledJob Spec Status) × String × Bool)
  | [] => []
  | .verifyTriggers obj action dryRun :: es => (obj, action, dryRun) :: validatorCalls es
  | .log _ _ _ :: es => validatorCalls es

/-! ## The decision engine -/

/-- The function `isScaledJobRemovingFinalizer`. -/
def isScaledJobRemovingFinalizer {Ctx Spec Status : Type} (E : Env Ctx Spec Status)
    (om oldOm : ObjectMeta) (spec oldSpec : Spec) : Bool :=
  let taSpec := E.marshalIndentSpec spec
  let oldTaSpec := E.marshalIndentSpec oldSpec
  let taSpecString := bytesToString taSpec
  let oldTaSpecString := bytesToString oldTaSpec
  decide (om.Finalizers.length = 0) && decide (oldOm.Finalizers.length = 1)
    && decide (taSpecString = oldTaSpecString)

/-- The method `(s *ScaledJob) ValidateCreate(dryRun *bool)`. -/
def ScaledJob.ValidateCreate {Ctx Spec Status : Type} (E : Env Ctx Spec Status)
    (s : Option (ScaledJob Spec Status)) (dryRun : Option Bool) :
    Run Spec Status (Warnings × Option GoError) := do
  let val := bytesToString (E.marshalIndentScaledJob s)
  Run.emit (.log .scaledjoblog 0 ("validating scaledjob creation for " ++ val))
  let d ← Run.deref dryRun
  let err ← callVerifyTriggers E s "create" d
  return (none, err)

/-- The method `(s *ScaledJob) ValidateUpdate(old runtime.Object, dryRun *bool)`. -/
def ScaledJob.ValidateUpdate {Ctx Spec Status : Type} (E : Env Ctx Spec Status)
    (s : Option (ScaledJob Spec Status)) (old : RuntimeObject Spec Status)
    (dryRun : Option Bool) : Run Spec Status (Warnings × Option GoError) := do
  let val := bytesToString (E.marshalIndentScaledJob s)
  Run.emit (.log .scaledobjectlog 1 ("validating scaledjob update for " ++ val))
  let oldTa ← assertScaledJob old
  let sv ← Run.deref s
  let oldv ← Run.deref oldTa
  if isScaledJobRemovingFinalizer E sv.ObjectMeta oldv.ObjectMeta sv.Spec oldv.Spec then
    Run.emit (.log .scaledjoblog 1 "finalizer removal, skipping validation")
    return (none, none)
  else
    let d ← Run.deref dryRun
    let err ← callVerifyTriggers E s "update" d
    return (none, err)

/-- The method `(s *ScaledJob) ValidateDelete(_ *bool)`. -/
def ScaledJob.ValidateDelete {Spec Status : Type}
    (_s : Option (ScaledJob Spec Status)) (_dryRun : Option Bool) :
    Run Spec Status (Warnings × Option GoError) :=
  return (none, none)

/-! ## The dispatcher -/

/-- The method `ScaledJobCustomValidator.ValidateCreate(ctx, obj)`. -/
def ScaledJobCustomValidator.ValidateCreate {Ctx Spec Status : Type}
    (E : Env Ctx Spec Status) (ctx : Ctx) (obj : RuntimeObject Spec Status) :
    Run Spec Status (Warnings × Option GoError) :=
  match E.RequestFromContext ctx with
  | .error err => return (none, some err)
  | .ok request => do
    let sj ← assertScaledJob obj
    ScaledJob.ValidateCreate E sj request.DryRun

/-- The method `ScaledJobCustomValidator.ValidateUpdate(ctx, oldObj, newObj)`. -/
def ScaledJobCustomValidator.ValidateUpdate {Ctx Spec Status : Type}
    (E : Env Ctx Spec Status) (ctx : Ctx) (oldObj newObj : RuntimeObject Spec Status) :
    Run Spec Status (Warnings × Option GoError) :=
  match E.RequestFromContext ctx with
  | .error err => return (none, some err)
  | .ok request => do
    let sj ← assertScaledJob newObj
    let old ← assertScaledJob oldObj
    ScaledJob.ValidateUpdate E sj (.scaledJob old) request.DryRun

/-- The method `ScaledJobCustomValidator.ValidateDelete(ctx, obj)`. -/
def ScaledJobCustomValidator.ValidateDelete {Ctx Spec Status : Type}
    (E : Env Ctx Spec Status) (ctx : Ctx) (obj : RuntimeObject Spec Status) :
    Run Spec Status (Warnings × Option GoError) :=
  match E.RequestFromContext ctx with
  | .error err => return (none, some err)
  | .ok request => do
    let sj ← assertScaledJob obj
    ScaledJob.ValidateDelete sj request.DryRun

/-! ## Variations of a call -/

/-- The environment `E` with `m` as serializer of the candidate for the log
record, and everything else unchanged. -/
def Env.withLogSerializer {Ctx Spec Status : Type} (E : Env Ctx Spec Status)
    (m : Option (ScaledJob Spec Status) → MarshalResult) : Env Ctx Spec Status :=
  ⟨E.RequestFromContext, m, E.marshalIndentSpec, E.verifyTriggers⟩

/-- Whether a finished call returned, with nil warnings. -/
def Run.nilWarnings {Spec Status : Type} (r : Run Spec Status (Warnings × Option GoError)) :
    Bool :=
  match r.result with
  | .ok (none, _) => true
  | .ok (some _, _) => false
  | .error _ => false

/-- Whether a finished call panicked. -/
def Run.panicked {Spec Status α : Type} (r : Run Spec Status α) : Bool :=
  match r.result with
  | .ok _ => false
  | .error _ => true

/-! ## The decision engine as a transformer of the outside world

The same three methods, in state-passing form: a call receives the world as
the earlier calls left it, may read it, and hands it on. -/

/-- The state that outlives a call: the records given to the two package-level
loggers and the calls received by the trigger validator, oldest first. -/
abbrev World (Spec Status : Type) := List (Event Spec Status)

/-- A Go call as a function of the world it starts in: the world it leaves,
and its return value or panic. -/
structure Exec (Spec Status α : Type) where
  run : World Spec Status → World Spec Status × Except Panic α

namespace Exec

variable {Ctx Spec Status α β : Type}

/-- Return without touching the world. -/
def ret (a : α) : Exec Spec Status α := ⟨fun w => (w, .ok a)⟩

/-- Run `m`, then `f` on its value in the world that `m` left; a panic of `m`
ends the call. -/
def andThen (m : Exec Spec Status α) (f : α → Exec Spec Status β) : Exec Spec Status β :=
  ⟨fun w =>
    match m.run w with
    | (w1, .error p) => (w1, .error p)
    | (w1, .ok a) => (f a).run w1⟩

instance : Monad (Exec Spec Status) where
  pure := ret
  bind := andThen

/-- The call `logger.V(verbosity).Info(msg)`: one more record in the world. -/
def info (logger : Logger) (verbosity : Nat) (msg : String) : Exec Spec Status Unit :=
  ⟨fun w => (w ++ [.log logger verbosity msg], .ok ())⟩

/-- Raise a panic. -/
def raise (p : Panic) : Exec Spec Status α := ⟨fun w => (w, .error p)⟩

/-- The dereference `*p`, and the field access `p.f` through a pointer. -/
def deref : Option α → Exec Spec Status α
  | some a => ret a
  | none => raise .nilDereference

/-- The type assertion `obj.(*ScaledJob)`. -/
def assertScaledJob :
    RuntimeObject Spec Status → Exec Spec Status (Option (ScaledJob Spec Status))
  | .scaledJob p => ret p
  | .nil => raise .typeAssertion
  | .other _ => raise .typeAssertion

/-- The call `verifyTriggers(obj, action, dryRun)` of a validator whose verdict
is a function of its arguments: one more call in the world. -/
def verifyTriggers (E : Env Ctx Spec Status) (obj : Option (ScaledJob Spec Status))
    (action : String) (dryRun : Bool) : Exec Spec Status (Option GoError) :=
  ⟨fun w => (w ++ [.verifyTriggers obj action dryRun],
    .ok (E.verifyTriggers obj action dryRun))⟩

end Exec

/-- The method `(s *ScaledJob) ValidateCreate(dryRun *bool)`, in state-passing
form. -/
def Stateful.ScaledJob.ValidateCreate {Ctx Spec Status : Type} (E : Env Ctx Spec Status)
    (s : Option (ScaledJob Spec Status)) (dryRun : Option Bool) :
    Exec Spec Status (Warnings × Option GoError) := do
  let val := bytesToString (E.marshalIndentScaledJob s)
  Exec.info .scaledjoblog 0 ("validating scaledjob creation for " ++ val)
  let d ← Exec.deref dryRun
  let err ← Exec.verifyTriggers E s "create" d
  return (none, err)

/-- The method `(s *ScaledJob) ValidateUpdate(old runtime.Object, dryRun *bool)`,
in state-passing form. -/
def Stateful.ScaledJob.ValidateUpdate {Ctx Spec Status : Type} (E : Env Ctx Spec Status)
    (s : Option (ScaledJob Spec Status)) (old : RuntimeObject Spec Status)
    (dryRun : Option Bool) : Exec Spec Status (Warnings × Option GoError) := do
  let val := bytesToString (E.marshalIndentScaledJob s)
  Exec.info .scaledobjectlog 1 ("validating scaledjob update for " ++ val)
  let oldTa ← Exec.assertScaledJob old
  let sv ← Exec.deref s
  let oldv ← Exec.deref oldTa
  if isScaledJobRemovingFinalizer E sv.ObjectMeta oldv.ObjectMeta sv.Spec oldv.Spec then
    Exec.info .scaledjoblog 1 "finalizer removal, skipping validation"
    return (none, none)
  else
    let d ← Exec.deref dryRun
    let err ← Exec.verifyTriggers E s "update" d
    return (none, err)

/-- The method `(s *ScaledJob) ValidateDelete(_ *bool)`, in state-passing
form. -/
def Stateful.ScaledJob.ValidateDelete {Spec Status : Type}
    (_s : Option (ScaledJob Spec Status)) (_dryRun : Option Bool) :
    Exec Spec Status (Warnings × Option GoError) :=
  return (none, none)

/-! ## A small environment, for concrete runs -/

namespace Sample

/-- A specification with one trigger, named by its type, and a marker for a
value that `encoding/json` cannot render. -/
structure Spec where
  Trigger : String
  Unsupported : Bool
deriving DecidableEq, Repr

/-- A serializer of `Spec` that fails on an unsupported value. -/
def marshalIndentSpec (spec : Spec) : MarshalResult :=
  if spec.Unsupported then .error "json: unsupported value"
  else .ok ("trigger: " ++ spec.Trigger)

/-- A serializer of `*ScaledJob`: `null` for the nil pointer. -/
def marshalIndentScaledJob : Option (ScaledJob Spec Unit) → MarshalResult
  | none => .ok "null"
  | some j =>
    match marshalIndentSpec j.Spec with
    | .ok b => .ok ("name=" ++ j.ObjectMeta.Name ++ " " ++ b)
    | .error e => .error e

/-- A trigger validator that rejects a job without triggers. -/
def verifyTriggers : Option (ScaledJob Spec Unit) → String → Bool → Option GoError
  | none, _, _ => some "unknown scalable object type"
  | some j, _, _ => if j.Spec.Trigger = "" then some "no triggers defined" else none

/-- The request lookup on a context that holds the request or nothing. -/
def RequestFromContext : Option Request → Except GoError Request
  | some r => .ok r
  | none => .error "admission.Request not found in context"

/-- The sample environment. -/
def env : Env (Option Request) Spec Unit where
  RequestFromContext := RequestFromContext
  marshalIndentScaledJob := marshalIndentScaledJob
  marshalIndentSpec := marshalIndentSpec
  verifyTriggers := verifyTriggers

/-- Metadata of the object `jobs/worker` with the given finalizers. -/
def meta (finalizers : List String) : ObjectMeta where
  Name := "worker"
  Namespace := "jobs"
  Labels := []
  Annotations := []
  OwnerReferences := []
  Finalizers := finalizers

/-- A job with the given finalizers and specification. -/
def job (finalizers : List String) (spec : Spec) : ScaledJob Spec Unit where
  TypeMeta := ⟨"ScaledJob", "keda.sh/v1alpha1"⟩
  ObjectMeta := meta finalizers
  Spec := spec
  Status := ()

/-- A specification with a cron trigger. -/
def cronSpec : Spec := ⟨"cron", false⟩

/-- A specification with a kafka trigger. -/
def kafkaSpec : Spec := ⟨"kafka", false⟩

/-- A specification without trigger, which the sample validator rejects. -/
def emptySpec : Spec := ⟨"", false⟩

/-- A specification without trigger that fails to serialize. -/
def brokenSpec : Spec := ⟨"", true⟩

/-- A specification with a cron trigger that fails to serialize. -/
def brokenCronSpec : Spec := ⟨"cron", true⟩

/-- A specification with a trigger and a slice of pending pod conditions;
`none` is the nil slice, `some []` the empty slice. -/
structure SliceSpec where
  Trigger : String
  PendingPodConditions : Option (List String)
deriving DecidableEq, Repr

/-- A serializer of `SliceSpec` that never fails and, as under the struct tag
`omitempty`, leaves the pending pod conditions out when the slice is nil or
empty. -/
def marshalIndentSliceSpec (spec : SliceSpec) : MarshalResult :=
  match spec.PendingPodConditions with
  | none => .ok ("trigger: " ++ spec.Trigger)
  | some [] => .ok ("trigger: " ++ spec.Trigger)
  | some (c :: cs) =>
    .ok ("trigger: " ++ spec.Trigger ++ " pendingPodConditions: "
      ++ String.intercalate "," (c :: cs))

/-- A serializer of a `*ScaledJob` over `SliceSpec`. -/
def marshalIndentSliceJob : Option (ScaledJob SliceSpec Unit) → MarshalResult
  | none => .ok "null"
  | some j =>
    match marshalIndentSliceSpec j.Spec with
    | .ok b => .ok ("name=" ++ j.ObjectMeta.Name ++ " " ++ b)
    | .error e => .error e

/-- A trigger validator over `SliceSpec` that rejects a job without trigger. -/
def verifySliceTriggers : Option (ScaledJob SliceSpec Unit) → String → Bool → Option GoError
  | none, _, _ => some "unknown scalable object type"
  | some j, _, _ => if j.Spec.Trigger = "" then some "no triggers defined" else none

/-- The sample environment over `SliceSpec`. -/
def sliceEnv : Env (Option Request) SliceSpec Unit where
  RequestFromContext := RequestFromContext
  marshalIndentScaledJob := marshalIndentSliceJob
  marshalIndentSpec := marshalIndentSliceSpec
  verifyTriggers := verifySliceTriggers

/-- A job over `SliceSpec` with the given finalizers and specification. -/
def sliceJob (finalizers : List String) (spec : SliceSpec) : ScaledJob SliceSpec Unit where
  TypeMeta := ⟨"ScaledJob", "keda.sh/v1alpha1"⟩
  ObjectMeta := meta finalizers
  Spec := spec
  Status := ()

end Sample

/-! ## Lemmas on the execution of the decision engine -/

section Lemmas

variable {Ctx Spec Status : Type}

theorem isScaledJobRemovingFinalizer_eq_true_iff (E : Env Ctx Spec Status)
    (om oldOm : ObjectMeta) (spec oldSpec : Spec) :
    isScaledJobRemovingFinalizer E om oldOm spec oldSpec = true ↔
      om.Finalizers.length = 0 ∧ oldOm.Finalizers.length = 1 ∧
        bytesToString (E.marshalIndentSpec spec)
          = bytesToString (E.marshalIndentSpec oldSpec) := by
  simp [isScaledJobRemovingFinalizer, and_assoc]

theorem isScaledJobRemovingFinalizer_eq_false_iff (E : Env Ctx Spec Status)
    (om oldOm : ObjectMeta) (spec oldSpec : Spec) :
    isScaledJobRemovingFinalizer E om oldOm spec oldSpec = false ↔
      ¬ (om.Finalizers.length = 0 ∧ oldOm.Finalizers.length = 1 ∧
        bytesToString (E.marshalIndentSpec spec)
          = bytesToString (E.marshalIndentSpec oldSpec)) := by
  rw [← isScaledJobRemovingFinalizer_eq_true_iff]
  simp

/-- The run of an update that takes the exemption branch. -/
theorem validateUpdate_of_exempt (E : Env Ctx Spec Status) (s old : ScaledJob Spec Status)
    (dryRun : Option Bool)
    (h : isScaledJobRemovingFinalizer E s.ObjectMeta old.ObjectMeta s.Spec old.Spec = true) :
    ScaledJob.ValidateUpdate E (some s) (.scaledJob (some old)) dryRun =
      ⟨[.log .scaledobjectlog 1 ("validating scaledjob update for "
            ++ bytesToString (E.marshalIndentScaledJob (some s))),
         .log .scaledjoblog 1 "finalizer removal, skipping validation"],
       .ok (none, none)⟩ := by
  simp [ScaledJob.ValidateUpdate, h, bind, pure, Run.andThen, Run.ret, Run.emit, Run.deref,
    assertScaledJob]

/-- The run of an update that does not take the exemption branch. -/
theorem validateUpdate_of_not_exempt (E : Env Ctx Spec Status)
    (s old : ScaledJob Spec Status) (d : Bool)
    (h : isScaledJobRemovingFinalizer E s.ObjectMeta old.ObjectMeta s.Spec old.Spec = false) :
    ScaledJob.ValidateUpdate E (some s) (.scaledJob (some old)) (some d) =
      ⟨[.log .scaledobjectlog 1 ("validating scaledjob update for "
            ++ bytesToString (E.marshalIndentScaledJob (some s))),
         .verifyTriggers (some s) "update" d],
       .ok (none, E.verifyTriggers (some s) "update" d)⟩ := by
  simp [ScaledJob.ValidateUpdate, h, bind, pure, Run.andThen, Run.ret, Run.emit, Run.deref,
    assertScaledJob, callVerifyTriggers]

/-- The run of a create with a DryRun value. -/
theorem validateCreate_run (E : Env Ctx Spec Status) (s : Option (ScaledJob Spec Status))
    (d : Bool) :
    ScaledJob.ValidateCreate E s (some d) =
      ⟨[.log .scaledjoblog 0 ("validating scaledjob creation for "
            ++ bytesToString (E.marshalIndentScaledJob s)),
         .verifyTriggers s "create" d],
       .ok (none, E.verifyTriggers s "create" d)⟩ := by
  simp [ScaledJob.ValidateCreate, bind, pure, Run.andThen, Run.ret, Run.emit, Run.deref,
    callVerifyTriggers]

/-- The run of an update whose previous object is not a `*ScaledJob` that
points to a job. -/
theorem validateUpdate_of_malformed (E : Env Ctx Spec Status)
    (s : Option (ScaledJob Spec Status)) (old : RuntimeObject Spec Status)
    (dryRun : Option Bool) (hold : ∀ j, old ≠ .scaledJob (some j)) :
    ScaledJob.ValidateUpdate E s old dryRun =
      ⟨[.log .scaledobjectlog 1 ("validating scaledjob update for "
            ++ bytesToString (E.marshalIndentScaledJob s))],
       .error (match old with
          | .scaledJob _ => Panic.nilDereference
          | _ => Panic.typeAssertion)⟩ := by
  cases old with
  | nil =>
    simp [ScaledJob.ValidateUpdate, bind, Run.andThen, Run.emit, Run.raise, assertScaledJob]
  | other t =>
    simp [ScaledJob.ValidateUpdate, bind, Run.andThen, Run.emit, Run.raise, assertScaledJob]
  | scaledJob p =>
    cases p with
    | some j => exact absurd rfl (hold j)
    | none =>
      cases s <;>
        simp [ScaledJob.ValidateUpdate, bind, Run.andThen, Run.emit, Run.raise, Run.ret,
          Run.deref, assertScaledJob]

/-- A failed serialization and a successful one compare as different strings,
as long as the successful one is not empty. -/
theorem bytesToString_error_ne_ok (e : GoError) (b : String) (hb : b ≠ "") :
    bytesToString (.error e) ≠ bytesToString (.ok b) := by
  simp only [bytesToString]
  exact fun h => hb h.symm

/-- The run of a create without DryRun value. -/
theorem validateCreate_of_nil_dryRun (E : Env Ctx Spec Status)
    (s : Option (ScaledJob Spec Status)) :
    ScaledJob.ValidateCreate E s none =
      ⟨[.log .scaledjoblog 0 ("validating scaledjob creation for "
            ++ bytesToString (E.marshalIndentScaledJob s))],
       .error Panic.nilDereference⟩ := by
  simp [ScaledJob.ValidateCreate, bind, Run.andThen, Run.emit, Run.deref, Run.raise]

/-- The run of an update without DryRun value that does not take the
exemption branch. -/
theorem validateUpdate_of_nil_dryRun (E : Env Ctx Spec Status)
    (s old : ScaledJob Spec Status)
    (h : isScaledJobRemovingFinalizer E s.ObjectMeta old.ObjectMeta s.Spec old.Spec = false) :
    ScaledJob.ValidateUpdate E (some s) (.scaledJob (some old)) none =
      ⟨[.log .scaledobjectlog 1 ("validating scaledjob update for "
            ++ bytesToString (E.marshalIndentScaledJob (some s)))],
       .error Panic.nilDereference⟩ := by
  simp [ScaledJob.ValidateUpdate, h, bind, pure, Run.andThen, Run.ret, Run.emit, Run.deref,
    Run.raise, assertScaledJob]

/-- The run of an update on a nil receiver. -/
theorem validateUpdate_of_nil_receiver (E : Env Ctx Spec Status)
    (old : Option (ScaledJob Spec Status)) (dryRun : Option Bool) :
    ScaledJob.ValidateUpdate E none (.scaledJob old) dryRun =
      ⟨[.log .scaledobjectlog 1 ("validating scaledjob update for "
            ++ bytesToString (E.marshalIndentScaledJob none))],
       .error Panic.nilDereference⟩ := by
  simp [ScaledJob.ValidateUpdate, bind, Run.andThen, Run.ret, Run.emit, Run.deref,
    Run.raise, assertScaledJob]

/-- The dispatcher hands a create over to the decision engine. -/
theorem dispatcher_validateCreate_run (E : Env Ctx Spec Status) (ctx : Ctx) (r : Request)
    (p : Option (ScaledJob Spec Status)) (hctx : E.RequestFromContext ctx = .ok r) :
    ScaledJobCustomValidator.ValidateCreate E ctx (.scaledJob p)
      = ScaledJob.ValidateCreate E p r.DryRun := by
  simp [ScaledJobCustomValidator.ValidateCreate, hctx, bind, Run.andThen, Run.ret,
    assertScaledJob]

/-- The dispatcher hands an update over to the decision engine, the new object
as receiver and the old object as argument. -/
theorem dispatcher_validateUpdate_run (E : Env Ctx Spec Status) (ctx : Ctx) (r : Request)
    (old new : Option (ScaledJob Spec Status)) (hctx : E.RequestFromContext ctx = .ok r) :
    ScaledJobCustomValidator.ValidateUpdate E ctx (.scaledJob old) (.scaledJob new)
      = ScaledJob.ValidateUpdate E new (.scaledJob old) r.DryRun := by
  simp [ScaledJobCustomValidator.ValidateUpdate, hctx, bind, Run.andThen, Run.ret,
    assertScaledJob]

/-- The run of the dispatcher on a delete, with a request in the context. -/
theorem dispatcher_validateDelete_run (E : Env Ctx Spec Status) (ctx : Ctx) (r : Request)
    (p : Option (ScaledJob Spec Status)) (hctx : E.RequestFromContext ctx = .ok r) :
    ScaledJobCustomValidator.ValidateDelete E ctx (.scaledJob p)
      = ⟨[], .ok (none, none)⟩ := by
  simp [ScaledJobCustomValidator.ValidateDelete, ScaledJob.ValidateDelete, hctx, bind, pure,
    Run.andThen, Run.ret, assertScaledJob]

/-- The type assertion on an object that is not a `*ScaledJob`. -/
theorem assertScaledJob_of_wrong_type (obj : RuntimeObject Spec Status)
    (hobj : ∀ p, obj ≠ .scaledJob p) :
    assertScaledJob obj = ⟨[], .error Panic.typeAssertion⟩ := by
  cases obj with
  | nil => rfl
  | other t => rfl
  | scaledJob p => exact absurd rfl (hobj p)

/-- The exemption does not read the serializer of the log record. -/
theorem isScaledJobRemovingFinalizer_withLogSerializer (E : Env Ctx Spec Status)
    (m : Option (ScaledJob Spec Status) → MarshalResult) (om oldOm : ObjectMeta)
    (spec oldSpec : Spec) :
    isScaledJobRemovingFinalizer (E.withLogSerializer m) om oldOm spec oldSpec
      = isScaledJobRemovingFinalizer E om oldOm spec oldSpec :=
  rfl

/-- An update returns nil warnings or panics. -/
theorem validateUpdate_nilWarnings_or_panicked (E : Env Ctx Spec Status)
    (s : Option (ScaledJob Spec Status)) (old : RuntimeObject Spec Status)
    (dryRun : Option Bool) :
    (ScaledJob.ValidateUpdate E s old dryRun).nilWarnings = true ∨
      (ScaledJob.ValidateUpdate E s old dryRun).panicked = true := by
  rcases old with _ | (_ | o) | t
  · rw [validateUpdate_of_malformed E s _ dryRun (fun _ h => by cases h)]
    exact Or.inr rfl
  · rw [validateUpdate_of_malformed E s _ dryRun (fun _ h => by cases h)]
    exact Or.inr rfl
  · cases s with
    | none =>
      rw [validateUpdate_of_nil_receiver]
      exact Or.inr rfl
    | some j =>
      cases h : isScaledJobRemovingFinalizer E j.ObjectMeta o.ObjectMeta j.Spec o.Spec with
      | true =>
        rw [validateUpdate_of_exempt E j o dryRun h]
        exact Or.inl rfl
      | false =>
        cases dryRun with
        | none =>
          rw [validateUpdate_of_nil_dryRun E j o h]
          exact Or.inr rfl
        | some d =>
          rw [validateUpdate_of_not_exempt E j o d h]
          exact Or.inl rfl
  · rw [validateUpdate_of_malformed E s _ dryRun (fun _ h => by cases h)]
    exact Or.inr rfl

/-- A create returns nil warnings or panics. -/
theorem validateCreate_nilWarnings_or_panicked (E : Env Ctx Spec Status)
    (s : Option (ScaledJob Spec Status)) (dryRun : Option Bool) :
    (ScaledJob.ValidateCreate E s dryRun).nilWarnings = true ∨
      (ScaledJob.ValidateCreate E s dryRun).panicked = true := by
  cases dryRun with
  | none =>
    rw [validateCreate_of_nil_dryRun]
    exact Or.inr rfl
  | some d =>
    rw [validateCreate_run]
    exact Or.inl rfl

/-- The result of an update and its calls of the trigger validator do not
depend on the serializer of the log record. -/
theorem validateUpdate_withLogSerializer (E : Env Ctx Spec Status)
    (m : Option (ScaledJob Spec Status) → MarshalResult)
    (s : Option (ScaledJob Spec Status)) (old : RuntimeObject Spec Status)
    (dryRun : Option Bool) :
    (ScaledJob.ValidateUpdate (E.withLogSerializer m) s old dryRun).result
        = (ScaledJob.ValidateUpdate E s old dryRun).result ∧
      validatorCalls (ScaledJob.ValidateUpdate (E.withLogSerializer m) s old dryRun).trace
        = validatorCalls (ScaledJob.ValidateUpdate E s old dryRun).trace := by
  rcases old with _ | (_ | o) | t
  · rw [validateUpdate_of_malformed E s _ dryRun (fun _ h => by cases h),
      validateUpdate_of_malformed (E.withLogSerializer m) s _ dryRun (fun _ h => by cases h)]
    exact ⟨rfl, rfl⟩
  · rw [validateUpdate_of_malformed E s _ dryRun (fun _ h => by cases h),
      validateUpdate_of_malformed (E.withLogSerializer m) s _ dryRun (fun _ h => by cases h)]
    exact ⟨rfl, rfl⟩
  · cases s with
    | none =>
      rw [validateUpdate_of_nil_receiver, validateUpdate_of_nil_receiver]
      exact ⟨rfl, rfl⟩
    | some j =>
      cases h : isScaledJobRemovingFinalizer E j.ObjectMeta o.ObjectMeta j.Spec o.Spec with
      | true =>
        rw [validateUpdate_of_exempt E j o dryRun h,
          validateUpdate_of_exempt (E.withLogSerializer m) j o dryRun h]
        exact ⟨rfl, rfl⟩
      | false =>
        cases dryRun with
        | none =>
          rw [validateUpdate_of_nil_dryRun E j o h,
            validateUpdate_of_nil_dryRun (E.withLogSerializer m) j o h]
          exact ⟨rfl, rfl⟩
        | some d =>
          rw [validateUpdate_of_not_exempt E j o d h,
            validateUpdate_of_not_exempt (E.withLogSerializer m) j o d h]
          exact ⟨rfl, rfl⟩
  · rw [validateUpdate_of_malformed E s _ dryRun (fun _ h => by cases h),
      validateUpdate_of_malformed (E.withLogSerializer m) s _ dryRun (fun _ h => by cases h)]
    exact ⟨rfl, rfl⟩

/-- The result of a create and its calls of the trigger validator do not
depend on the serializer of the log record. -/
theorem validateCreate_withLogSerializer (E : Env Ctx Spec Status)
    (m : Option (ScaledJob Spec Status) → MarshalResult)
    (s : Option (ScaledJob Spec Status)) (dryRun : Option Bool) :
    (ScaledJob.ValidateCreate (E.withLogSerializer m) s dryRun).result
        = (ScaledJob.ValidateCreate E s dryRun).result ∧
      validatorCalls (ScaledJob.ValidateCreate (E.withLogSerializer m) s dryRun).trace
        = validatorCalls (ScaledJob.ValidateCreate E s dryRun).trace := by
  cases dryRun with
  | none =>
    rw [validateCreate_of_nil_dryRun, validateCreate_of_nil_dryRun]
    exact ⟨rfl, rfl⟩
  | some d =>
    rw [validateCreate_run, validateCreate_run]
    exact ⟨rfl, rfl⟩

/-- The create operation of the dispatcher returns nil warnings or panics. -/
theorem dispatcher_validateCreate_nilWarnings_or_panicked (E : Env Ctx Spec Status)
    (ctx : Ctx) (obj : RuntimeObject Spec Status) :
    (ScaledJobCustomValidator.ValidateCreate E ctx obj).nilWarnings = true ∨
      (ScaledJobCustomValidator.ValidateCreate E ctx obj).panicked = true := by
  cases h : E.RequestFromContext ctx with
  | error err =>
    left
    simp [ScaledJobCustomValidator.ValidateCreate, h, pure, Run.ret, Run.nilWarnings]
  | ok r =>
    rcases obj with _ | p | t
    · right
      simp [ScaledJobCustomValidator.ValidateCreate, h, bind, Run.andThen, assertScaledJob,
        Run.raise, Run.panicked]
    · rw [dispatcher_validateCreate_run E ctx r p h]
      exact validateCreate_nilWarnings_or_panicked E p r.DryRun
    · right
      simp [ScaledJobCustomValidator.ValidateCreate, h, bind, Run.andThen, assertScaledJob,
        Run.raise, Run.panicked]

/-- The update operation of the dispatcher returns nil warnings or panics. -/
theorem dispatcher_validateUpdate_nilWarnings_or_panicked (E : Env Ctx Spec Status)
    (ctx : Ctx) (oldObj newObj : RuntimeObject Spec Status) :
    (ScaledJobCustomValidator.ValidateUpdate E ctx oldObj newObj).nilWarnings = true ∨
      (ScaledJobCustomValidator.ValidateUpdate E ctx oldObj newObj).panicked = true := by
  cases h : E.RequestFromContext ctx with
  | error err =>
    left
    simp [ScaledJobCustomValidator.ValidateUpdate, h, pure, Run.ret, Run.nilWarnings]
  | ok r =>
    rcases newObj with _ | p | t
    · right
      simp [ScaledJobCustomValidator.ValidateUpdate, h, bind, Run.andThen, assertScaledJob,
        Run.raise, Run.panicked]
    · rcases oldObj with _ | q | u
      · right
        simp [ScaledJobCustomValidator.ValidateUpdate, h, bind, Run.andThen, assertScaledJob,
          Run.raise, Run.ret, Run.panicked]
      · rw [dispatcher_validateUpdate_run E ctx r q p h]
        exact validateUpdate_nilWarnings_or_panicked E p _ r.DryRun
      · right
        simp [ScaledJobCustomValidator.ValidateUpdate, h, bind, Run.andThen, assertScaledJob,
          Run.raise, Run.ret, Run.panicked]
    · right
      simp [ScaledJobCustomValidator.ValidateUpdate, h, bind, Run.andThen, assertScaledJob,
        Run.raise, Run.panicked]

/-- The delete operation of the dispatcher returns nil warnings or panics. -/
theorem dispatcher_validateDelete_nilWarnings_or_panicked (E : Env Ctx Spec Status)
    (ctx : Ctx) (obj : RuntimeObject Spec Status) :
    (ScaledJobCustomValidator.ValidateDelete E ctx obj).nilWarnings = true ∨
      (ScaledJobCustomValidator.ValidateDelete E ctx obj).panicked = true := by
  cases h : E.RequestFromContext ctx with
  | error err =>
    left
    simp [ScaledJobCustomValidator.ValidateDelete, h, pure, Run.ret, Run.nilWarnings]
  | ok r =>
    rcases obj with _ | p | t
    · right
      simp [ScaledJobCustomValidator.ValidateDelete, h, bind, Run.andThen, assertScaledJob,
        Run.raise, Run.panicked]
    · rw [dispatcher_validateDelete_run E ctx r p h]
      exact Or.inl rfl
    · right
      simp [ScaledJobCustomValidator.ValidateDelete, h, bind, Run.andThen, assertScaledJob,
        Run.raise, Run.panicked]

/-- When a create returns: exactly with a DryRun value. -/
theorem validateCreate_nilWarnings_iff (E : Env Ctx Spec Status)
    (s : Option (ScaledJob Spec Status)) (dryRun : Option Bool) :
    (ScaledJob.ValidateCreate E s dryRun).nilWarnings = dryRun.isSome ∧
      (ScaledJob.ValidateCreate E s dryRun).panicked
        = !(ScaledJob.ValidateCreate E s dryRun).nilWarnings := by
  cases dryRun with
  | none =>
    rw [validateCreate_of_nil_dryRun]
    exact ⟨rfl, rfl⟩
  | some d =>
    rw [validateCreate_run]
    exact ⟨rfl, rfl⟩

/-- When an update returns: exactly when candidate and previous object are
jobs and either the exemption holds or there is a DryRun value. -/
theorem validateUpdate_nilWarnings_iff (E : Env Ctx Spec Status)
    (s : Option (ScaledJob Spec Status)) (old : RuntimeObject Spec Status)
    (dryRun : Option Bool) :
    ((ScaledJob.ValidateUpdate E s old dryRun).nilWarnings = true ↔
        ∃ j jo, s = some j ∧ old = .scaledJob (some jo) ∧
          (isScaledJobRemovingFinalizer E j.ObjectMeta jo.ObjectMeta j.Spec jo.Spec = true ∨
            dryRun.isSome = true)) ∧
      (ScaledJob.ValidateUpdate E s old dryRun).panicked
        = !(ScaledJob.ValidateUpdate E s old dryRun).nilWarnings := by
  rcases old with _ | (_ | o) | t
  · rw [validateUpdate_of_malformed E s _ dryRun (fun _ h => by cases h)]
    refine ⟨⟨fun h => (by cases h), ?_⟩, rfl⟩
    rintro ⟨_, _, _, h, _⟩
    cases h
  · rw [validateUpdate_of_malformed E s _ dryRun (fun _ h => by cases h)]
    refine ⟨⟨fun h => (by cases h), ?_⟩, rfl⟩
    rintro ⟨_, _, _, h, _⟩
    cases h
  · cases s with
    | none =>
      rw [validateUpdate_of_nil_receiver]
      refine ⟨⟨fun h => (by cases h), ?_⟩, rfl⟩
      rintro ⟨_, _, h, _, _⟩
      cases h
    | some j =>
      cases h : isScaledJobRemovingFinalizer E j.ObjectMeta o.ObjectMeta j.Spec o.Spec with
      | true =>
        rw [validateUpdate_of_exempt E j o dryRun h]
        exact ⟨⟨fun _ => ⟨j, o, rfl, rfl, Or.inl h⟩, fun _ => rfl⟩, rfl⟩
      | false =>
        cases dryRun with
        | none =>
          rw [validateUpdate_of_nil_dryRun E j o h]
          refine ⟨⟨fun hn => (by cases hn), ?_⟩, rfl⟩
          rintro ⟨j2, o2, hj, ho, hc⟩
          cases hj
          cases ho
          rcases hc with hc | hc
          · rw [h] at hc
            cases hc
          · cases hc
        | some d =>
          rw [validateUpdate_of_not_exempt E j o d h]
          exact ⟨⟨fun _ => ⟨j, o, rfl, rfl, Or.inr rfl⟩, fun _ => rfl⟩, rfl⟩
  · rw [validateUpdate_of_malformed E s _ dryRun (fun _ h => by cases h)]
    refine ⟨⟨fun h => (by cases h), ?_⟩, rfl⟩
    rintro ⟨_, _, _, h, _⟩
    cases h

/-- When the create operation of the dispatcher returns: exactly when the
request cannot be extracted, or it carries a DryRun value and the object is a
`*ScaledJob`. -/
theorem dispatcher_validateCreate_nilWarnings_iff (E : Env Ctx Spec Status)
    (ctx : Ctx) (obj : RuntimeObject Spec Status) :
    ((ScaledJobCustomValidator.ValidateCreate E ctx obj).nilWarnings = true ↔
        (∃ err, E.RequestFromContext ctx = .error err) ∨
          ∃ r p, E.RequestFromContext ctx = .ok r ∧ obj = .scaledJob p ∧
            r.DryRun.isSome = true) ∧
      (ScaledJobCustomValidator.ValidateCreate E ctx obj).panicked
        = !(ScaledJobCustomValidator.ValidateCreate E ctx obj).nilWarnings := by
  cases hc : E.RequestFromContext ctx with
  | error err =>
    have hrun : ScaledJobCustomValidator.ValidateCreate E ctx obj
        = ⟨[], .ok (none, some err)⟩ := by
      simp [ScaledJobCustomValidator.ValidateCreate, hc, pure, Run.ret]
    rw [hrun]
    exact ⟨⟨fun _ => Or.inl ⟨err, rfl⟩, fun _ => rfl⟩, rfl⟩
  | ok r =>
    rcases obj with _ | p | t
    · have hrun : ScaledJobCustomValidator.ValidateCreate E ctx RuntimeObject.nil
          = ⟨[], .error Panic.typeAssertion⟩ := by
        simp [ScaledJobCustomValidator.ValidateCreate, hc, bind, Run.andThen,
          assertScaledJob, Run.raise]
      rw [hrun]
      refine ⟨⟨fun h => (by cases h), ?_⟩, rfl⟩
      rintro (⟨_, h⟩ | ⟨_, _, _, h, _⟩) <;> cases h
    · rw [dispatcher_validateCreate_run E ctx r p hc]
      obtain ⟨h1, h2⟩ := validateCreate_nilWarnings_iff E p r.DryRun
      refine ⟨?_, h2⟩
      rw [h1]
      constructor
      · intro h
        exact Or.inr ⟨r, p, rfl, rfl, h⟩
      · rintro (⟨_, h⟩ | ⟨r2, _, hr, _, h⟩)
        · cases h
        · cases hr
          exact h
    · have hrun : ScaledJobCustomValidator.ValidateCreate E ctx (RuntimeObject.other t)
          = ⟨[], .error Panic.typeAssertion⟩ := by
        simp [ScaledJobCustomValidator.ValidateCreate, hc, bind, Run.andThen,
          assertScaledJob, Run.raise]
      rw [hrun]
      refine ⟨⟨fun h => (by cases h), ?_⟩, rfl⟩
      rintro (⟨_, h⟩ | ⟨_, _, _, h, _⟩) <;> cases h

/-- When the delete operation of the dispatcher returns: exactly when the
request cannot be extracted, or the object is a `*ScaledJob`. -/
theorem dispatcher_validateDelete_nilWarnings_iff (E : Env Ctx Spec Status)
    (ctx : Ctx) (obj : RuntimeObject Spec Status) :
    ((ScaledJobCustomValidator.ValidateDelete E ctx obj).nilWarnings = true ↔
        (∃ err, E.RequestFromContext ctx = .error err) ∨
          ∃ r p, E.RequestFromContext ctx = .ok r ∧ obj = .scaledJob p) ∧
      (ScaledJobCustomValidator.ValidateDelete E ctx obj).panicked
        = !(ScaledJobCustomValidator.ValidateDelete E ctx obj).nilWarnings := by
  cases hc : E.RequestFromContext ctx with
  | error err =>
    have hrun : ScaledJobCustomValidator.ValidateDelete E ctx obj
        = ⟨[], .ok (none, some err)⟩ := by
      simp [ScaledJobCustomValidator.ValidateDelete, hc, pure, Run.ret]
    rw [hrun]
    exact ⟨⟨fun _ => Or.inl ⟨err, rfl⟩, fun _ => rfl⟩, rfl⟩
  | ok r =>
    rcases obj with _ | p | t
    · have hrun : ScaledJobCustomValidator.ValidateDelete E ctx RuntimeObject.nil
          = ⟨[], .error Panic.typeAssertion⟩ := by
        simp [ScaledJobCustomValidator.ValidateDelete, hc, bind, Run.andThen,
          assertScaledJob, Run.raise]
      rw [hrun]
      refine ⟨⟨fun h => (by cases h), ?_⟩, rfl⟩
      rintro (⟨_, h⟩ | ⟨_, _, _, h⟩) <;> cases h
    · rw [dispatcher_validateDelete_run E ctx r p hc]
      exact ⟨⟨fun _ => Or.inr ⟨r, p, rfl, rfl⟩, fun _ => rfl⟩, rfl⟩
    · have hrun : ScaledJobCustomValidator.ValidateDelete E ctx (RuntimeObject.other t)
          = ⟨[], .error Panic.typeAssertion⟩ := by
        simp [ScaledJobCustomValidator.ValidateDelete, hc, bind, Run.andThen,
          assertScaledJob, Run.raise]
      rw [hrun]
      refine ⟨⟨fun h => (by cases h), ?_⟩, rfl⟩
      rintro (⟨_, h⟩ | ⟨_, _, _, h⟩) <;> cases h

/-- When the update operation of the dispatcher returns: exactly when the
request cannot be extracted, or both objects are jobs and either the
exemption holds, with the new object as candidate, or the request carries a
DryRun value. -/
theorem dispatcher_validateUpdate_nilWarnings_iff (E : Env Ctx Spec Status)
    (ctx : Ctx) (oldObj newObj : RuntimeObject Spec Status) :
    ((ScaledJobCustomValidator.ValidateUpdate E ctx oldObj newObj).nilWarnings = true ↔
        (∃ err, E.RequestFromContext ctx = .error err) ∨
          ∃ r j jo, E.RequestFromContext ctx = .ok r ∧ newObj = .scaledJob (some j) ∧
            oldObj = .scaledJob (some jo) ∧
            (isScaledJobRemovingFinalizer E j.ObjectMeta jo.ObjectMeta j.Spec jo.Spec = true ∨
              r.DryRun.isSome = true)) ∧
      (ScaledJobCustomValidator.ValidateUpdate E ctx oldObj newObj).panicked
        = !(ScaledJobCustomValidator.ValidateUpdate E ctx oldObj newObj).nilWarnings := by
  cases hc : E.RequestFromContext ctx with
  | error err =>
    have hrun : ScaledJobCustomValidator.ValidateUpdate E ctx oldObj newObj
        = ⟨[], .ok (none, some err)⟩ := by
      simp [ScaledJobCustomValidator.ValidateUpdate, hc, pure, Run.ret]
    rw [hrun]
    exact ⟨⟨fun _ => Or.inl ⟨err, rfl⟩, fun _ => rfl⟩, rfl⟩
  | ok r =>
    by_cases hnew : ∃ p, newObj = .scaledJob p
    · obtain ⟨p, rfl⟩ := hnew
      by_cases hold : ∃ q, oldObj = .scaledJob q
      · obtain ⟨q, rfl⟩ := hold
        rw [dispatcher_validateUpdate_run E ctx r q p hc]
        obtain ⟨h1, h2⟩ := validateUpdate_nilWarnings_iff E p (.scaledJob q) r.DryRun
        refine ⟨?_, h2⟩
        rw [h1]
        constructor
        · rintro ⟨j, jo, hj, ho, hx⟩
          cases hj
          cases ho
          exact Or.inr ⟨r, j, jo, rfl, rfl, rfl, hx⟩
        · rintro (⟨_, h⟩ | ⟨r2, j, jo, hr, hj, ho, hx⟩)
          · cases h
          · cases hr
            cases hj
            cases ho
            exact ⟨j, jo, rfl, rfl, hx⟩
      · have hrun : ScaledJobCustomValidator.ValidateUpdate E ctx oldObj (.scaledJob p)
            = ⟨[], .error Panic.typeAssertion⟩ := by
          have ha := assertScaledJob_of_wrong_type oldObj (fun q hq => hold ⟨q, hq⟩)
          have hp : assertScaledJob (RuntimeObject.scaledJob p)
              = (⟨[], .ok p⟩ : Run Spec Status (Option (ScaledJob Spec Status))) := rfl
          simp [ScaledJobCustomValidator.ValidateUpdate, hc, ha, hp, bind, Run.andThen]
        rw [hrun]
        refine ⟨⟨fun h => (by cases h), ?_⟩, rfl⟩
        rintro (⟨_, h⟩ | ⟨_, _, jo, _, _, ho, _⟩)
        · cases h
        · exact absurd ⟨some jo, ho⟩ hold
    · have hrun : ScaledJobCustomValidator.ValidateUpdate E ctx oldObj newObj
          = ⟨[], .error Panic.typeAssertion⟩ := by
        have ha := assertScaledJob_of_wrong_type newObj (fun q hq => hnew ⟨q, hq⟩)
        simp [ScaledJobCustomValidator.ValidateUpdate, hc, ha, bind, Run.andThen]
      rw [hrun]
      refine ⟨⟨fun h => (by cases h), ?_⟩, rfl⟩
      rintro (⟨_, h⟩ | ⟨_, j, _, _, hj, _, _⟩)
      · cases h
      · exact absurd ⟨some j, hj⟩ hnew

/-- In every world, a create in state-passing form appends the trace of the
create to the world and has its result. -/
theorem stateful_validateCreate_run (E : Env Ctx Spec Status)
    (s : Option (ScaledJob Spec Status)) (dryRun : Option Bool) (w : World Spec Status) :
    (Stateful.ScaledJob.ValidateCreate E s dryRun).run w
      = (w ++ (ScaledJob.ValidateCreate E s dryRun).trace,
          (ScaledJob.ValidateCreate E s dryRun).result) := by
  cases dryRun with
  | none =>
    rw [validateCreate_of_nil_dryRun]
    simp [Stateful.ScaledJob.ValidateCreate, bind, Exec.andThen, Exec.info, Exec.deref,
      Exec.raise]
  | some d =>
    rw [validateCreate_run]
    simp [Stateful.ScaledJob.ValidateCreate, bind, pure, Exec.andThen, Exec.info, Exec.deref,
      Exec.ret, Exec.verifyTriggers]

/-- In every world, an update in state-passing form appends the trace of the
update to the world and has its result. -/
theorem stateful_validateUpdate_run (E : Env Ctx Spec Status)
    (s : Option (ScaledJob Spec Status)) (old : RuntimeObject Spec Status)
    (dryRun : Option Bool) (w : World Spec Status) :
    (Stateful.ScaledJob.ValidateUpdate E s old dryRun).run w
      = (w ++ (ScaledJob.ValidateUpdate E s old dryRun).trace,
          (ScaledJob.ValidateUpdate E s old dryRun).result) := by
  rcases old with _ | (_ | o) | t
  · rw [validateUpdate_of_malformed E s _ dryRun (fun _ h => by cases h)]
    simp [Stateful.ScaledJob.ValidateUpdate, bind, Exec.andThen, Exec.info,
      Exec.assertScaledJob, Exec.raise]
  · rw [validateUpdate_of_malformed E s _ dryRun (fun _ h => by cases h)]
    cases s <;>
      simp [Stateful.ScaledJob.ValidateUpdate, bind, Exec.andThen, Exec.info,
        Exec.assertScaledJob, Exec.raise, Exec.ret, Exec.deref]
  · cases s with
    | none =>
      rw [validateUpdate_of_nil_receiver]
      simp [Stateful.ScaledJob.ValidateUpdate, bind, Exec.andThen, Exec.info,
        Exec.assertScaledJob, Exec.raise, Exec.ret, Exec.deref]
    | some j =>
      cases h : isScaledJobRemovingFinalizer E j.ObjectMeta o.ObjectMeta j.Spec o.Spec with
      | true =>
        rw [validateUpdate_of_exempt E j o dryRun h]
        simp [Stateful.ScaledJob.ValidateUpdate, h, bind, pure, Exec.andThen, Exec.info,
          Exec.assertScaledJob, Exec.ret, Exec.deref]
      | false =>
        cases dryRun with
        | none =>
          rw [validateUpdate_of_nil_dryRun E j o h]
          simp [Stateful.ScaledJob.ValidateUpdate, h, bind, pure, Exec.andThen, Exec.info,
            Exec.assertScaledJob, Exec.ret, Exec.deref, Exec.raise]
        | some d =>
          rw [validateUpdate_of_not_exempt E j o d h]
          simp [Stateful.ScaledJob.ValidateUpdate, h, bind, pure, Exec.andThen, Exec.info,
            Exec.assertScaledJob, Exec.ret, Exec.deref, Exec.verifyTriggers]
  · rw [validateUpdate_of_malformed E s _ dryRun (fun _ h => by cases h)]
    simp [Stateful.ScaledJob.ValidateUpdate, bind, Exec.andThen, Exec.info,
      Exec.assertScaledJob, Exec.raise]

end Lemmas

/-! ## The finalizer-removal exemption -/

/-- C1: `isScaledJobRemovingFinalizer` returns true if and only if the
candidate has zero finalizers, the previous object has exactly one finalizer,
and the serialization of the candidate specification equals the serialization
of the previous specification (as the strings the code compares). -/
theorem C1_isScaledJobRemovingFinalizer_iff {Ctx Spec Status : Type}
    (E : Env Ctx Spec Status) (om oldOm : ObjectMeta) (spec oldSpec : Spec) :
    isScaledJobRemovingFinalizer E om oldOm spec oldSpec = true ↔
      (om.Finalizers.length = 0 ∧ oldOm.Finalizers.length = 1 ∧
        bytesToString (E.marshalIndentSpec spec)
          = bytesToString (E.marshalIndentSpec oldSpec)) := by
  unfold isScaledJobRemovingFinalizer
  constructor
  · intro h
    simp only [Bool.and_eq_true, decide_eq_true_eq] at h
    exact ⟨h.1.1, h.1.2, h.2⟩
  · rintro ⟨h0, h1, h2⟩
    simp only [Bool.and_eq_true, decide_eq_true_eq]
    exact ⟨⟨h0, h1⟩, h2⟩

/-- C2: when the previous object has exactly one finalizer, the candidate has
none and the two specifications serialize identically, `ValidateUpdate`
returns `(nil, nil)` and its trace holds no call of the trigger validator,
for every DryRun pointer and every validator. -/
theorem C2_validateUpdate_exempt_allows {Ctx Spec Status : Type}
    (E : Env Ctx Spec Status) (s old : ScaledJob Spec Status) (dryRun : Option Bool)
    (hcand : s.ObjectMeta.Finalizers.length = 0)
    (hprev : old.ObjectMeta.Finalizers.length = 1)
    (hspec : bytesToString (E.marshalIndentSpec s.Spec)
      = bytesToString (E.marshalIndentSpec old.Spec)) :
    (ScaledJob.ValidateUpdate E (some s) (.scaledJob (some old)) dryRun).result
        = .ok (none, none) ∧
      validatorCalls
        (ScaledJob.ValidateUpdate E (some s) (.scaledJob (some old)) dryRun).trace = [] := by
  have h := (isScaledJobRemovingFinalizer_eq_true_iff E s.ObjectMeta old.ObjectMeta
    s.Spec old.Spec).mpr ⟨hcand, hprev, hspec⟩
  rw [validateUpdate_of_exempt E s old dryRun h]
  exact ⟨rfl, rfl⟩

/-- Witness of C2: the finalizer `keda.sh/finalizer` is removed from a job
whose specification has no triggers, which the sample validator rejects. -/
theorem C2_validateUpdate_exempt_allows_witness :
    Sample.verifyTriggers (some (Sample.job [] Sample.emptySpec)) "update" false
        = some "no triggers defined" ∧
      (ScaledJob.ValidateUpdate Sample.env (some (Sample.job [] Sample.emptySpec))
        (.scaledJob (some (Sample.job ["keda.sh/finalizer"] Sample.emptySpec)))
        (some false)).result = .ok (none, none) ∧
      validatorCalls
        (ScaledJob.ValidateUpdate Sample.env (some (Sample.job [] Sample.emptySpec))
          (.scaledJob (some (Sample.job ["keda.sh/finalizer"] Sample.emptySpec)))
          (some false)).trace = [] :=
  ⟨rfl, C2_validateUpdate_exempt_allows Sample.env (Sample.job [] Sample.emptySpec)
    (Sample.job ["keda.sh/finalizer"] Sample.emptySpec) (some false) rfl rfl rfl⟩

/-- C3: when the exemption does not hold, `ValidateUpdate` calls the trigger
validator exactly once, on the candidate, with the tag "update" and the given
DryRun value, and returns nil warnings with exactly the validator result as
error, so that it allows if and only if the validator returns no error. -/
theorem C3_validateUpdate_not_exempt_delegates {Ctx Spec Status : Type}
    (E : Env Ctx Spec Status) (s old : ScaledJob Spec Status) (d : Bool)
    (h : isScaledJobRemovingFinalizer E s.ObjectMeta old.ObjectMeta s.Spec old.Spec = false) :
    validatorCalls
        (ScaledJob.ValidateUpdate E (some s) (.scaledJob (some old)) (some d)).trace
        = [(some s, "update", d)] ∧
      (ScaledJob.ValidateUpdate E (some s) (.scaledJob (some old)) (some d)).result
        = .ok (none, E.verifyTriggers (some s) "update" d) ∧
      ((ScaledJob.ValidateUpdate E (some s) (.scaledJob (some old)) (some d)).result
          = .ok (none, none) ↔ E.verifyTriggers (some s) "update" d = none) := by
  rw [validateUpdate_of_not_exempt E s old d h]
  refine ⟨rfl, rfl, ?_⟩
  constructor
  · intro hr
    simpa using hr
  · intro hv
    simp [hv]

/-- Witness of C3: an update that changes the trigger of a job and keeps its
finalizer. -/
theorem C3_validateUpdate_not_exempt_delegates_witness :
    validatorCalls
        (ScaledJob.ValidateUpdate Sample.env
          (some (Sample.job ["keda.sh/finalizer"] Sample.kafkaSpec))
          (.scaledJob (some (Sample.job ["keda.sh/finalizer"] Sample.cronSpec)))
          (some true)).trace
        = [(some (Sample.job ["keda.sh/finalizer"] Sample.kafkaSpec), "update", true)] ∧
      (ScaledJob.ValidateUpdate Sample.env
          (some (Sample.job ["keda.sh/finalizer"] Sample.kafkaSpec))
          (.scaledJob (some (Sample.job ["keda.sh/finalizer"] Sample.cronSpec)))
          (some true)).result
        = .ok (none, Sample.env.verifyTriggers
            (some (Sample.job ["keda.sh/finalizer"] Sample.kafkaSpec)) "update" true) ∧
      ((ScaledJob.ValidateUpdate Sample.env
          (some (Sample.job ["keda.sh/finalizer"] Sample.kafkaSpec))
          (.scaledJob (some (Sample.job ["keda.sh/finalizer"] Sample.cronSpec)))
          (some true)).result = .ok (none, none) ↔
        Sample.env.verifyTriggers
          (some (Sample.job ["keda.sh/finalizer"] Sample.kafkaSpec)) "update" true = none) :=
  C3_validateUpdate_not_exempt_delegates Sample.env
    (Sample.job ["keda.sh/finalizer"] Sample.kafkaSpec)
    (Sample.job ["keda.sh/finalizer"] Sample.cronSpec) true (by decide)

/-! ## Create and delete -/

/-- C4: for every candidate and DryRun value, `ValidateCreate` calls the trigger
validator once with the tag "create" and that DryRun value, returns nil
warnings with exactly the validator result as error, and so allows if and only
if the validator returns no error. -/
theorem C4_validateCreate_delegates {Ctx Spec Status : Type}
    (E : Env Ctx Spec Status) (s : Option (ScaledJob Spec Status)) (d : Bool) :
    validatorCalls (ScaledJob.ValidateCreate E s (some d)).trace = [(s, "create", d)] ∧
      (ScaledJob.ValidateCreate E s (some d)).result
        = .ok (none, E.verifyTriggers s "create" d) ∧
      ((ScaledJob.ValidateCreate E s (some d)).result = .ok (none, none) ↔
        E.verifyTriggers s "create" d = none) := by
  rw [validateCreate_run E s d]
  refine ⟨rfl, rfl, ?_⟩
  constructor
  · intro hr
    simpa using hr
  · intro hv
    simp [hv]

/-- C5: for every resource and every DryRun pointer, the nil pointer included,
`ValidateDelete` returns `(nil, nil)` and has no effect: the trigger validator
is not called. -/
theorem C5_validateDelete_allows {Spec Status : Type}
    (s : Option (ScaledJob Spec Status)) (dryRun : Option Bool) :
    (ScaledJob.ValidateDelete s dryRun).result = .ok (none, none) ∧
      (ScaledJob.ValidateDelete s dryRun).trace = [] ∧
      validatorCalls (ScaledJob.ValidateDelete s dryRun).trace = [] :=
  ⟨rfl, rfl, rfl⟩

/-! ## Updates that are not exempt -/

/-- C6: when the candidate has no finalizer and the previous object has a
number of finalizers other than one, the exemption does not apply, whatever
the specifications: `ValidateUpdate` calls the trigger validator once with
the tag "update" and returns its result. -/
theorem C6_validateUpdate_count_not_one {Ctx Spec Status : Type}
    (E : Env Ctx Spec Status) (s old : ScaledJob Spec Status) (d : Bool)
    (_hcand : s.ObjectMeta.Finalizers.length = 0)
    (hprev : old.ObjectMeta.Finalizers.length ≠ 1) :
    isScaledJobRemovingFinalizer E s.ObjectMeta old.ObjectMeta s.Spec old.Spec = false ∧
      validatorCalls
        (ScaledJob.ValidateUpdate E (some s) (.scaledJob (some old)) (some d)).trace
        = [(some s, "update", d)] ∧
      (ScaledJob.ValidateUpdate E (some s) (.scaledJob (some old)) (some d)).result
        = .ok (none, E.verifyTriggers (some s) "update" d) := by
  have h : isScaledJobRemovingFinalizer E s.ObjectMeta old.ObjectMeta s.Spec old.Spec
      = false :=
    (isScaledJobRemovingFinalizer_eq_false_iff E _ _ _ _).mpr (fun hc => hprev hc.2.1)
  rw [validateUpdate_of_not_exempt E s old d h]
  exact ⟨h, rfl, rfl⟩

/-- Witness of C6: the previous object has the finalizers `a` and `b`, the
candidate has none, and the specification is unchanged. -/
theorem C6_validateUpdate_count_not_one_witness :
    isScaledJobRemovingFinalizer Sample.env (Sample.job [] Sample.cronSpec).ObjectMeta
        (Sample.job ["a", "b"] Sample.cronSpec).ObjectMeta
        (Sample.job [] Sample.cronSpec).Spec (Sample.job ["a", "b"] Sample.cronSpec).Spec
        = false ∧
      validatorCalls
        (ScaledJob.ValidateUpdate Sample.env (some (Sample.job [] Sample.cronSpec))
          (.scaledJob (some (Sample.job ["a", "b"] Sample.cronSpec))) (some false)).trace
        = [(some (Sample.job [] Sample.cronSpec), "update", false)] ∧
      (ScaledJob.ValidateUpdate Sample.env (some (Sample.job [] Sample.cronSpec))
          (.scaledJob (some (Sample.job ["a", "b"] Sample.cronSpec))) (some false)).result
        = .ok (none, Sample.env.verifyTriggers (some (Sample.job [] Sample.cronSpec))
            "update" false) :=
  C6_validateUpdate_count_not_one Sample.env (Sample.job [] Sample.cronSpec)
    (Sample.job ["a", "b"] Sample.cronSpec) false rfl (by decide)

/-- C7, as stated, fails: the candidate has no finalizer, the previous object
has one, the two specifications differ in the field of pending pod conditions
(the empty slice against the nil slice), both serialize without error, and
yet `isScaledJobRemovingFinalizer` returns true and `ValidateUpdate` returns
`(nil, nil)` without a call of the trigger validator: the serializer renders
the two values alike, and the code compares the renderings. -/
theorem C7_counterexample_unrendered_difference :
    (Sample.meta []).Finalizers.length = 0 ∧
      (Sample.meta ["keda.sh/finalizer"]).Finalizers.length = 1 ∧
      (⟨"cron", some []⟩ : Sample.SliceSpec) ≠ ⟨"cron", none⟩ ∧
      Sample.marshalIndentSliceSpec ⟨"cron", some []⟩ = .ok "trigger: cron" ∧
      Sample.marshalIndentSliceSpec ⟨"cron", none⟩ = .ok "trigger: cron" ∧
      isScaledJobRemovingFinalizer Sample.sliceEnv (Sample.meta [])
        (Sample.meta ["keda.sh/finalizer"]) ⟨"cron", some []⟩ ⟨"cron", none⟩ = true ∧
      ScaledJob.ValidateUpdate Sample.sliceEnv
          (some (Sample.sliceJob [] ⟨"cron", some []⟩))
          (.scaledJob (some (Sample.sliceJob ["keda.sh/finalizer"] ⟨"cron", none⟩)))
          (some false)
        = ⟨[.log .scaledobjectlog 1 "validating scaledjob update for name=worker trigger: cron",
            .log .scaledjoblog 1 "finalizer removal, skipping validation"],
           .ok (none, none)⟩ :=
  ⟨rfl, rfl, by decide, rfl, rfl, rfl, rfl⟩

/-- C7, amended: when the previous object has exactly one finalizer and the
candidate has none, if the serialization of the candidate specification
differs from the serialization of the previous specification (as the strings
the code compares, a failed serialization being the empty string), then
`isScaledJobRemovingFinalizer` returns false, and `ValidateUpdate` calls the
trigger validator once and returns its result. -/
theorem C7_validateUpdate_spec_changed {Ctx Spec Status : Type}
    (E : Env Ctx Spec Status) (s old : ScaledJob Spec Status) (d : Bool)
    (_hcand : s.ObjectMeta.Finalizers.length = 0)
    (_hprev : old.ObjectMeta.Finalizers.length = 1)
    (hser : bytesToString (E.marshalIndentSpec s.Spec)
      ≠ bytesToString (E.marshalIndentSpec old.Spec)) :
    isScaledJobRemovingFinalizer E s.ObjectMeta old.ObjectMeta s.Spec old.Spec = false ∧
      validatorCalls
        (ScaledJob.ValidateUpdate E (some s) (.scaledJob (some old)) (some d)).trace
        = [(some s, "update", d)] ∧
      (ScaledJob.ValidateUpdate E (some s) (.scaledJob (some old)) (some d)).result
        = .ok (none, E.verifyTriggers (some s) "update" d) := by
  have h : isScaledJobRemovingFinalizer E s.ObjectMeta old.ObjectMeta s.Spec old.Spec
      = false :=
    (isScaledJobRemovingFinalizer_eq_false_iff E _ _ _ _).mpr (fun hc => hser hc.2.2)
  rw [validateUpdate_of_not_exempt E s old d h]
  exact ⟨h, rfl, rfl⟩

/-- Witness of C7, amended: the finalizer is removed and the trigger changes
from cron to kafka, which the serializer renders. -/
theorem C7_validateUpdate_spec_changed_witness :
    isScaledJobRemovingFinalizer Sample.env (Sample.job [] Sample.kafkaSpec).ObjectMeta
        (Sample.job ["keda.sh/finalizer"] Sample.cronSpec).ObjectMeta
        (Sample.job [] Sample.kafkaSpec).Spec
        (Sample.job ["keda.sh/finalizer"] Sample.cronSpec).Spec = false ∧
      validatorCalls
        (ScaledJob.ValidateUpdate Sample.env (some (Sample.job [] Sample.kafkaSpec))
          (.scaledJob (some (Sample.job ["keda.sh/finalizer"] Sample.cronSpec)))
          (some false)).trace
        = [(some (Sample.job [] Sample.kafkaSpec), "update", false)] ∧
      (ScaledJob.ValidateUpdate Sample.env (some (Sample.job [] Sample.kafkaSpec))
          (.scaledJob (some (Sample.job ["keda.sh/finalizer"] Sample.cronSpec)))
          (some false)).result
        = .ok (none, Sample.env.verifyTriggers (some (Sample.job [] Sample.kafkaSpec))
            "update" false) :=
  C7_validateUpdate_spec_changed Sample.env (Sample.job [] Sample.kafkaSpec)
    (Sample.job ["keda.sh/finalizer"] Sample.cronSpec) false rfl rfl (by decide)

/-! ## Serialization failures in the comparison -/

/-- C8, as stated, fails: both specifications fail to serialize, and
`isScaledJobRemovingFinalizer` returns true; `ValidateUpdate` then returns
`(nil, nil)` without a call of the trigger validator, which would have
rejected the candidate. -/
theorem C8_counterexample_both_serializations_fail :
    Sample.marshalIndentSpec Sample.brokenSpec = .error "json: unsupported value" ∧
      Sample.marshalIndentSpec Sample.brokenCronSpec = .error "json: unsupported value" ∧
      isScaledJobRemovingFinalizer Sample.env (Sample.meta [])
        (Sample.meta ["keda.sh/finalizer"]) Sample.brokenSpec Sample.brokenCronSpec
        = true ∧
      ScaledJob.ValidateUpdate Sample.env (some (Sample.job [] Sample.brokenSpec))
        (.scaledJob (some (Sample.job ["keda.sh/finalizer"] Sample.brokenCronSpec)))
        (some false)
        = ⟨[.log .scaledobjectlog 1 "validating scaledjob update for ",
            .log .scaledjoblog 1 "finalizer removal, skipping validation"],
           .ok (none, none)⟩ ∧
      Sample.verifyTriggers (some (Sample.job [] Sample.brokenSpec)) "update" false
        = some "no triggers defined" :=
  ⟨rfl, rfl, rfl, rfl, rfl⟩

/-- C8, amended: when serializing exactly one of the two specifications fails
and the other serialization is not empty, the comparison is "not equal":
`isScaledJobRemovingFinalizer` returns false, and `ValidateUpdate` calls the
trigger validator and returns its result. -/
theorem C8_validateUpdate_one_serialization_fails {Ctx Spec Status : Type}
    (E : Env Ctx Spec Status) (s old : ScaledJob Spec Status) (d : Bool)
    (e : GoError) (b : String) (hb : b ≠ "")
    (hfail : (E.marshalIndentSpec s.Spec = .error e ∧ E.marshalIndentSpec old.Spec = .ok b) ∨
      (E.marshalIndentSpec s.Spec = .ok b ∧ E.marshalIndentSpec old.Spec = .error e)) :
    isScaledJobRemovingFinalizer E s.ObjectMeta old.ObjectMeta s.Spec old.Spec = false ∧
      validatorCalls
        (ScaledJob.ValidateUpdate E (some s) (.scaledJob (some old)) (some d)).trace
        = [(some s, "update", d)] ∧
      (ScaledJob.ValidateUpdate E (some s) (.scaledJob (some old)) (some d)).result
        = .ok (none, E.verifyTriggers (some s) "update" d) := by
  have h : isScaledJobRemovingFinalizer E s.ObjectMeta old.ObjectMeta s.Spec old.Spec
      = false := by
    refine (isScaledJobRemovingFinalizer_eq_false_iff E _ _ _ _).mpr (fun hc => ?_)
    have h3 := hc.2.2
    rcases hfail with ⟨h1, h2⟩ | ⟨h1, h2⟩
    · rw [h1, h2] at h3
      exact bytesToString_error_ne_ok e b hb h3
    · rw [h1, h2] at h3
      exact bytesToString_error_ne_ok e b hb h3.symm
  rw [validateUpdate_of_not_exempt E s old d h]
  exact ⟨h, rfl, rfl⟩

/-- Witness of C8, amended: the candidate specification fails to serialize,
the previous one serializes. -/
theorem C8_validateUpdate_one_serialization_fails_witness :
    isScaledJobRemovingFinalizer Sample.env (Sample.job [] Sample.brokenCronSpec).ObjectMeta
        (Sample.job ["keda.sh/finalizer"] Sample.cronSpec).ObjectMeta
        (Sample.job [] Sample.brokenCronSpec).Spec
        (Sample.job ["keda.sh/finalizer"] Sample.cronSpec).Spec = false ∧
      validatorCalls
        (ScaledJob.ValidateUpdate Sample.env (some (Sample.job [] Sample.brokenCronSpec))
          (.scaledJob (some (Sample.job ["keda.sh/finalizer"] Sample.cronSpec)))
          (some false)).trace
        = [(some (Sample.job [] Sample.brokenCronSpec), "update", false)] ∧
      (ScaledJob.ValidateUpdate Sample.env (some (Sample.job [] Sample.brokenCronSpec))
          (.scaledJob (some (Sample.job ["keda.sh/finalizer"] Sample.cronSpec)))
          (some false)).result
        = .ok (none, Sample.env.verifyTriggers (some (Sample.job [] Sample.brokenCronSpec))
            "update" false) :=
  C8_validateUpdate_one_serialization_fails Sample.env (Sample.job [] Sample.brokenCronSpec)
    (Sample.job ["keda.sh/finalizer"] Sample.cronSpec) false
    "json: unsupported value" "trigger: cron" (by decide) (Or.inl ⟨rfl, rfl⟩)

/-! ## Malformed invocations -/

/-- C9, as stated, fails: with the nil interface as previous object,
`ValidateUpdate` panics at the type assertion after its log record; it does
not fall through to the trigger validator. -/
theorem C9_counterexample_nil_previous_panics :
    ScaledJob.ValidateUpdate Sample.env (some (Sample.job [] Sample.cronSpec))
        RuntimeObject.nil (some false)
      = ⟨[.log .scaledobjectlog 1 "validating scaledjob update for name=worker trigger: cron"],
         .error Panic.typeAssertion⟩ :=
  rfl

/-- C9, amended: when the previous object is the nil interface, a value of
another type or a nil `*ScaledJob`, `ValidateUpdate` returns no decision: it
panics, at the type assertion in the first two cases and at the dereference in
the third, and the trigger validator is not called. -/
theorem C9_validateUpdate_malformed_previous_panics {Ctx Spec Status : Type}
    (E : Env Ctx Spec Status) (s : Option (ScaledJob Spec Status))
    (old : RuntimeObject Spec Status) (dryRun : Option Bool)
    (hold : ∀ j, old ≠ .scaledJob (some j)) :
    (ScaledJob.ValidateUpdate E s old dryRun).result
        = .error (match old with
          | .scaledJob _ => Panic.nilDereference
          | _ => Panic.typeAssertion) ∧
      validatorCalls (ScaledJob.ValidateUpdate E s old dryRun).trace = [] := by
  rw [validateUpdate_of_malformed E s old dryRun hold]
  exact ⟨rfl, rfl⟩

/-- Witness of C9, amended: the previous object is a nil `*ScaledJob`. -/
theorem C9_validateUpdate_malformed_previous_panics_witness :
    (ScaledJob.ValidateUpdate Sample.env (some (Sample.job [] Sample.cronSpec))
        (.scaledJob none) (some false)).result = .error Panic.nilDereference ∧
      validatorCalls
        (ScaledJob.ValidateUpdate Sample.env (some (Sample.job [] Sample.cronSpec))
          (.scaledJob none) (some false)).trace = [] :=
  C9_validateUpdate_malformed_previous_panics Sample.env
    (some (Sample.job [] Sample.cronSpec)) (.scaledJob none) (some false)
    (fun _ h => by cases h)

/-- C10: when the admission request cannot be extracted from the context, the
dispatcher operations for create and update return nil warnings and the
extraction error, and have no effect: no log record of the decision engine and
no call of the trigger validator. -/
theorem C10_dispatcher_context_failure {Ctx Spec Status : Type}
    (E : Env Ctx Spec Status) (ctx : Ctx) (obj oldObj newObj : RuntimeObject Spec Status)
    (err : GoError) (hctx : E.RequestFromContext ctx = .error err) :
    ScaledJobCustomValidator.ValidateCreate E ctx obj = ⟨[], .ok (none, some err)⟩ ∧
      ScaledJobCustomValidator.ValidateUpdate E ctx oldObj newObj
        = ⟨[], .ok (none, some err)⟩ := by
  simp [ScaledJobCustomValidator.ValidateCreate, ScaledJobCustomValidator.ValidateUpdate,
    hctx, pure, Run.ret]

/-- Witness of C10: a context without request, and objects of a wrong type. -/
theorem C10_dispatcher_context_failure_witness :
    ScaledJobCustomValidator.ValidateCreate Sample.env none (.other "Pod")
        = ⟨[], .ok (none, some "admission.Request not found in context")⟩ ∧
      ScaledJobCustomValidator.ValidateUpdate Sample.env none RuntimeObject.nil
          (.scaledJob (some (Sample.job [] Sample.cronSpec)))
        = ⟨[], .ok (none, some "admission.Request not found in context")⟩ :=
  C10_dispatcher_context_failure Sample.env none (.other "Pod") RuntimeObject.nil
    (.scaledJob (some (Sample.job [] Sample.cronSpec)))
    "admission.Request not found in context" rfl

/-! ## The dispatcher on delete, absent DryRun and foreign objects -/

/-- C11, as stated, fails: on a context without admission request the delete
operation of the dispatcher returns the extraction error, not `(nil, nil)`. -/
theorem C11_counterexample_delete_without_request :
    ScaledJobCustomValidator.ValidateDelete Sample.env none
        (.scaledJob (some (Sample.job ["keda.sh/finalizer"] Sample.cronSpec)))
      = ⟨[], .ok (none, some "admission.Request not found in context")⟩ :=
  rfl

/-- C11, amended: for every context and every candidate of type `*ScaledJob`,
the delete operation of the dispatcher has no effect and returns `(nil, nil)`
when the admission request can be extracted from the context, whatever its
DryRun value, and nil warnings with the extraction error when it cannot. -/
theorem C11_dispatcher_validateDelete {Ctx Spec Status : Type}
    (E : Env Ctx Spec Status) (ctx : Ctx) (p : Option (ScaledJob Spec Status)) :
    ScaledJobCustomValidator.ValidateDelete E ctx (.scaledJob p)
      = (match E.RequestFromContext ctx with
        | .ok _ => ⟨[], .ok (none, none)⟩
        | .error err => ⟨[], .ok (none, some err)⟩) := by
  cases h : E.RequestFromContext ctx with
  | ok r => exact dispatcher_validateDelete_run E ctx r p h
  | error err => simp [ScaledJobCustomValidator.ValidateDelete, h, pure, Run.ret]

/-- C12, as stated, fails: with a request that carries no DryRun value, a
create panics at the dereference of the nil pointer instead of returning an
error, and an update that satisfies the finalizer-removal exemption is
allowed. -/
theorem C12_counterexample_nil_dryRun :
    ScaledJobCustomValidator.ValidateCreate Sample.env (some ⟨none⟩)
        (.scaledJob (some (Sample.job [] Sample.cronSpec)))
      = ⟨[.log .scaledjoblog 0 "validating scaledjob creation for name=worker trigger: cron"],
         .error Panic.nilDereference⟩ ∧
    (ScaledJobCustomValidator.ValidateUpdate Sample.env (some ⟨none⟩)
        (.scaledJob (some (Sample.job ["keda.sh/finalizer"] Sample.cronSpec)))
        (.scaledJob (some (Sample.job [] Sample.cronSpec)))).result
      = .ok (none, none) :=
  ⟨rfl, rfl⟩

/-- C12, amended: when the admission request is present in the context and
carries no DryRun value, a create, and an update that does not satisfy the
finalizer-removal exemption, return no decision: they panic at the dereference
of the nil pointer, after the log record and without a call of the trigger
validator. An update that satisfies the exemption does not read DryRun and
returns `(nil, nil)`. -/
theorem C12_dispatcher_nil_dryRun {Ctx Spec Status : Type}
    (E : Env Ctx Spec Status) (ctx : Ctx) (p : Option (ScaledJob Spec Status))
    (s old : ScaledJob Spec Status)
    (hctx : E.RequestFromContext ctx = .ok ⟨none⟩) :
    (ScaledJobCustomValidator.ValidateCreate E ctx (.scaledJob p)).result
        = .error Panic.nilDereference ∧
      validatorCalls (ScaledJobCustomValidator.ValidateCreate E ctx (.scaledJob p)).trace
        = [] ∧
      (ScaledJobCustomValidator.ValidateUpdate E ctx (.scaledJob (some old))
          (.scaledJob (some s))).result
        = (if isScaledJobRemovingFinalizer E s.ObjectMeta old.ObjectMeta s.Spec old.Spec
            then .ok (none, none) else .error Panic.nilDereference) ∧
      validatorCalls (ScaledJobCustomValidator.ValidateUpdate E ctx (.scaledJob (some old))
          (.scaledJob (some s))).trace = [] := by
  rw [dispatcher_validateCreate_run E ctx ⟨none⟩ p hctx,
    dispatcher_validateUpdate_run E ctx ⟨none⟩ (some old) (some s) hctx,
    validateCreate_of_nil_dryRun E p]
  cases h : isScaledJobRemovingFinalizer E s.ObjectMeta old.ObjectMeta s.Spec old.Spec with
  | true =>
    rw [validateUpdate_of_exempt E s old none h]
    exact ⟨rfl, rfl, rfl, rfl⟩
  | false =>
    rw [validateUpdate_of_nil_dryRun E s old h]
    exact ⟨rfl, rfl, rfl, rfl⟩

/-- Witness of C12, amended: a request without DryRun value, and an update
that changes the trigger. -/
theorem C12_dispatcher_nil_dryRun_witness :
    (ScaledJobCustomValidator.ValidateCreate Sample.env (some ⟨none⟩)
        (.scaledJob none)).result = .error Panic.nilDereference ∧
      validatorCalls (ScaledJobCustomValidator.ValidateCreate Sample.env (some ⟨none⟩)
        (.scaledJob none)).trace = [] ∧
      (ScaledJobCustomValidator.ValidateUpdate Sample.env (some ⟨none⟩)
          (.scaledJob (some (Sample.job ["keda.sh/finalizer"] Sample.cronSpec)))
          (.scaledJob (some (Sample.job [] Sample.kafkaSpec)))).result
        = .error Panic.nilDereference ∧
      validatorCalls (ScaledJobCustomValidator.ValidateUpdate Sample.env (some ⟨none⟩)
          (.scaledJob (some (Sample.job ["keda.sh/finalizer"] Sample.cronSpec)))
          (.scaledJob (some (Sample.job [] Sample.kafkaSpec)))).trace = [] :=
  C12_dispatcher_nil_dryRun Sample.env (some ⟨none⟩) none (Sample.job [] Sample.kafkaSpec)
    (Sample.job ["keda.sh/finalizer"] Sample.cronSpec) rfl

/-- C13, as stated, fails: handed a Pod, the create operation of the
dispatcher panics at the type assertion; it returns no error. -/
theorem C13_counterexample_foreign_object_panics :
    ScaledJobCustomValidator.ValidateCreate Sample.env (some ⟨some false⟩) (.other "Pod")
      = ⟨[], .error Panic.typeAssertion⟩ :=
  rfl

/-- C13, amended: when the admission request can be extracted from the context
and the object handed over is not a `*ScaledJob`, each dispatcher operation
panics at its type assertion: it returns no decision, and the decision engine
is not reached (no log record, no call of the trigger validator). For an
update this holds when the new object is foreign, and when the new object is a
`*ScaledJob` and the old one is foreign. -/
theorem C13_dispatcher_foreign_object_panics {Ctx Spec Status : Type}
    (E : Env Ctx Spec Status) (ctx : Ctx) (r : Request)
    (obj other : RuntimeObject Spec Status) (p : Option (ScaledJob Spec Status))
    (hctx : E.RequestFromContext ctx = .ok r)
    (hobj : ∀ q, obj ≠ .scaledJob q) :
    ScaledJobCustomValidator.ValidateCreate E ctx obj = ⟨[], .error Panic.typeAssertion⟩ ∧
      ScaledJobCustomValidator.ValidateUpdate E ctx other obj
        = ⟨[], .error Panic.typeAssertion⟩ ∧
      ScaledJobCustomValidator.ValidateUpdate E ctx obj (.scaledJob p)
        = ⟨[], .error Panic.typeAssertion⟩ ∧
      ScaledJobCustomValidator.ValidateDelete E ctx obj
        = ⟨[], .error Panic.typeAssertion⟩ := by
  have ha := assertScaledJob_of_wrong_type obj hobj
  refine ⟨?_, ?_, ?_, ?_⟩
  · simp [ScaledJobCustomValidator.ValidateCreate, hctx, ha, bind, Run.andThen]
  · simp [ScaledJobCustomValidator.ValidateUpdate, hctx, ha, bind, Run.andThen]
  · have hp : assertScaledJob (RuntimeObject.scaledJob p)
        = (⟨[], .ok p⟩ : Run Spec Status (Option (ScaledJob Spec Status))) := rfl
    simp [ScaledJobCustomValidator.ValidateUpdate, hctx, ha, hp, bind, Run.andThen]
  · simp [ScaledJobCustomValidator.ValidateDelete, hctx, ha, bind, Run.andThen]

/-- Witness of C13, amended: the nil interface as object. -/
theorem C13_dispatcher_foreign_object_panics_witness :
    ScaledJobCustomValidator.ValidateCreate Sample.env (some ⟨some true⟩) RuntimeObject.nil
        = ⟨[], .error Panic.typeAssertion⟩ ∧
      ScaledJobCustomValidator.ValidateUpdate Sample.env (some ⟨some true⟩) (.other "Pod")
          RuntimeObject.nil = ⟨[], .error Panic.typeAssertion⟩ ∧
      ScaledJobCustomValidator.ValidateUpdate Sample.env (some ⟨some true⟩) RuntimeObject.nil
          (.scaledJob (some (Sample.job [] Sample.cronSpec)))
        = ⟨[], .error Panic.typeAssertion⟩ ∧
      ScaledJobCustomValidator.ValidateDelete Sample.env (some ⟨some true⟩) RuntimeObject.nil
        = ⟨[], .error Panic.typeAssertion⟩ :=
  C13_dispatcher_foreign_object_panics Sample.env (some ⟨some true⟩) ⟨some true⟩
    RuntimeObject.nil (.other "Pod") (some (Sample.job [] Sample.cronSpec)) rfl
    (fun _ h => by cases h)

/-! ## DryRun, warnings, repeated calls and the log record -/

/-- C14: DryRun pass-through. For every previous and candidate job, the calls
of the trigger validator made by `ValidateUpdate` are none on the exemption
branch and one, with exactly the DryRun value given, on the validation
branch, and the branch is chosen by `isScaledJobRemovingFinalizer`, which does
not read DryRun; `ValidateCreate` makes one call with exactly the DryRun value
given; and if the verdict of the validator does not depend on DryRun, both
operations return the same result for DryRun true and false. -/
theorem C14_dryRun_pass_through {Ctx Spec Status : Type}
    (E : Env Ctx Spec Status) (s old : ScaledJob Spec Status)
    (c : Option (ScaledJob Spec Status)) (d : Bool) :
    validatorCalls
        (ScaledJob.ValidateUpdate E (some s) (.scaledJob (some old)) (some d)).trace
        = (if isScaledJobRemovingFinalizer E s.ObjectMeta old.ObjectMeta s.Spec old.Spec
            then [] else [(some s, "update", d)]) ∧
      validatorCalls (ScaledJob.ValidateCreate E c (some d)).trace = [(c, "create", d)] ∧
      ((∀ obj action, E.verifyTriggers obj action true = E.verifyTriggers obj action false) →
        (ScaledJob.ValidateUpdate E (some s) (.scaledJob (some old)) (some true)).result
            = (ScaledJob.ValidateUpdate E (some s) (.scaledJob (some old)) (some false)).result ∧
          (ScaledJob.ValidateCreate E c (some true)).result
            = (ScaledJob.ValidateCreate E c (some false)).result) := by
  refine ⟨?_, ?_, ?_⟩
  · cases h : isScaledJobRemovingFinalizer E s.ObjectMeta old.ObjectMeta s.Spec old.Spec with
    | true =>
      rw [validateUpdate_of_exempt E s old (some d) h]
      rfl
    | false =>
      rw [validateUpdate_of_not_exempt E s old d h]
      rfl
  · rw [validateCreate_run E c d]
    rfl
  · intro hindep
    constructor
    · cases h : isScaledJobRemovingFinalizer E s.ObjectMeta old.ObjectMeta s.Spec old.Spec with
      | true =>
        rw [validateUpdate_of_exempt E s old (some true) h,
          validateUpdate_of_exempt E s old (some false) h]
      | false =>
        rw [validateUpdate_of_not_exempt E s old true h,
          validateUpdate_of_not_exempt E s old false h, hindep]
    · rw [validateCreate_run E c true, validateCreate_run E c false, hindep]

/-- Witness of C14: the sample validator does not read DryRun, and an update
that changes the trigger is rejected or allowed alike for both values. -/
theorem C14_dryRun_pass_through_witness :
    (ScaledJob.ValidateUpdate Sample.env (some (Sample.job [] Sample.emptySpec))
          (.scaledJob (some (Sample.job [] Sample.cronSpec))) (some true)).result
        = (ScaledJob.ValidateUpdate Sample.env (some (Sample.job [] Sample.emptySpec))
          (.scaledJob (some (Sample.job [] Sample.cronSpec))) (some false)).result ∧
      (ScaledJob.ValidateCreate Sample.env (some (Sample.job [] Sample.emptySpec))
          (some true)).result
        = (ScaledJob.ValidateCreate Sample.env (some (Sample.job [] Sample.emptySpec))
          (some false)).result :=
  (C14_dryRun_pass_through Sample.env (Sample.job [] Sample.emptySpec)
    (Sample.job [] Sample.cronSpec) (some (Sample.job [] Sample.emptySpec)) true).2.2
      (fun obj _ => by cases obj <;> rfl)

/-- C15, as stated, fails: a create without DryRun value returns no warnings,
nil or other, and no error: it panics after its log record. -/
theorem C15_counterexample_create_returns_nothing :
    ScaledJob.ValidateCreate Sample.env (some (Sample.job [] Sample.emptySpec)) none
        = ⟨[.log .scaledjoblog 0 "validating scaledjob creation for name=worker trigger: "],
           .error Panic.nilDereference⟩ ∧
      (ScaledJob.ValidateCreate Sample.env (some (Sample.job [] Sample.emptySpec))
        none).nilWarnings = false :=
  ⟨rfl, rfl⟩

/-- C15, amended: on every input, every operation of the decision engine and
of the dispatcher either returns nil warnings (with the nil error on accept,
the error on reject or context failure) or panics, and so never returns a
warning. Each operation returns exactly in these cases: create with a DryRun
value; update with candidate and previous object that are jobs and either the
exemption or a DryRun value; delete always; and, for the dispatcher, when the
request cannot be extracted, or when the objects are `*ScaledJob` values and
the operation of the decision engine returns on them. -/
theorem C15_nil_warnings {Ctx Spec Status : Type}
    (E : Env Ctx Spec Status) (ctx : Ctx) (obj oldObj newObj old : RuntimeObject Spec Status)
    (s : Option (ScaledJob Spec Status)) (dryRun : Option Bool) :
    ((ScaledJob.ValidateCreate E s dryRun).nilWarnings = dryRun.isSome ∧
        (ScaledJob.ValidateCreate E s dryRun).panicked
          = !(ScaledJob.ValidateCreate E s dryRun).nilWarnings) ∧
      (((ScaledJob.ValidateUpdate E s old dryRun).nilWarnings = true ↔
          ∃ j jo, s = some j ∧ old = .scaledJob (some jo) ∧
            (isScaledJobRemovingFinalizer E j.ObjectMeta jo.ObjectMeta j.Spec jo.Spec = true ∨
              dryRun.isSome = true)) ∧
        (ScaledJob.ValidateUpdate E s old dryRun).panicked
          = !(ScaledJob.ValidateUpdate E s old dryRun).nilWarnings) ∧
      ((ScaledJob.ValidateDelete s dryRun).nilWarnings = true ∧
        (ScaledJob.ValidateDelete s dryRun).panicked = false) ∧
      (((ScaledJobCustomValidator.ValidateCreate E ctx obj).nilWarnings = true ↔
          (∃ err, E.RequestFromContext ctx = .error err) ∨
            ∃ r p, E.RequestFromContext ctx = .ok r ∧ obj = .scaledJob p ∧
              r.DryRun.isSome = true) ∧
        (ScaledJobCustomValidator.ValidateCreate E ctx obj).panicked
          = !(ScaledJobCustomValidator.ValidateCreate E ctx obj).nilWarnings) ∧
      (((ScaledJobCustomValidator.ValidateUpdate E ctx oldObj newObj).nilWarnings = true ↔
          (∃ err, E.RequestFromContext ctx = .error err) ∨
            ∃ r j jo, E.RequestFromContext ctx = .ok r ∧ newObj = .scaledJob (some j) ∧
              oldObj = .scaledJob (some jo) ∧
              (isScaledJobRemovingFinalizer E j.ObjectMeta jo.ObjectMeta j.Spec jo.Spec
                  = true ∨
                r.DryRun.isSome = true)) ∧
        (ScaledJobCustomValidator.ValidateUpdate E ctx oldObj newObj).panicked
          = !(ScaledJobCustomValidator.ValidateUpdate E ctx oldObj newObj).nilWarnings) ∧
      (((ScaledJobCustomValidator.ValidateDelete E ctx obj).nilWarnings = true ↔
          (∃ err, E.RequestFromContext ctx = .error err) ∨
            ∃ r p, E.RequestFromContext ctx = .ok r ∧ obj = .scaledJob p) ∧
        (ScaledJobCustomValidator.ValidateDelete E ctx obj).panicked
          = !(ScaledJobCustomValidator.ValidateDelete E ctx obj).nilWarnings) :=
  ⟨validateCreate_nilWarnings_iff E s dryRun,
    validateUpdate_nilWarnings_iff E s old dryRun,
    ⟨rfl, rfl⟩,
    dispatcher_validateCreate_nilWarnings_iff E ctx obj,
    dispatcher_validateUpdate_nilWarnings_iff E ctx oldObj newObj,
    dispatcher_validateDelete_nilWarnings_iff E ctx obj⟩

/-- C16: idempotence. With the trigger validator a function of its arguments,
the warnings and error that `ValidateCreate`, `ValidateUpdate` and
`ValidateDelete` return (or the panic they raise) are the same in every world
they are started in; in particular a second call with the same arguments,
started in the world the first call left, returns what the first returned.
The calls add log records and validator calls to the world and read nothing
of it. -/
theorem C16_idempotent {Ctx Spec Status : Type}
    (E : Env Ctx Spec Status) (s : Option (ScaledJob Spec Status))
    (old : RuntimeObject Spec Status) (dryRun : Option Bool) (w w2 : World Spec Status) :
    (((Stateful.ScaledJob.ValidateCreate E s dryRun).run w).2
          = ((Stateful.ScaledJob.ValidateCreate E s dryRun).run w2).2 ∧
        ((Stateful.ScaledJob.ValidateUpdate E s old dryRun).run w).2
          = ((Stateful.ScaledJob.ValidateUpdate E s old dryRun).run w2).2 ∧
        ((Stateful.ScaledJob.ValidateDelete s dryRun :
            Exec Spec Status (Warnings × Option GoError)).run w).2
          = ((Stateful.ScaledJob.ValidateDelete s dryRun :
            Exec Spec Status (Warnings × Option GoError)).run w2).2) ∧
      (((Stateful.ScaledJob.ValidateCreate E s dryRun).run
            ((Stateful.ScaledJob.ValidateCreate E s dryRun).run w).1).2
          = ((Stateful.ScaledJob.ValidateCreate E s dryRun).run w).2 ∧
        ((Stateful.ScaledJob.ValidateUpdate E s old dryRun).run
            ((Stateful.ScaledJob.ValidateUpdate E s old dryRun).run w).1).2
          = ((Stateful.ScaledJob.ValidateUpdate E s old dryRun).run w).2 ∧
        ((Stateful.ScaledJob.ValidateDelete s dryRun :
            Exec Spec Status (Warnings × Option GoError)).run
            ((Stateful.ScaledJob.ValidateDelete s dryRun :
              Exec Spec Status (Warnings × Option GoError)).run w).1).2
          = .ok (none, none)) := by
  refine ⟨⟨?_, ?_, rfl⟩, ?_, ?_, rfl⟩
  · rw [stateful_validateCreate_run E s dryRun w, stateful_validateCreate_run E s dryRun w2]
  · rw [stateful_validateUpdate_run E s old dryRun w,
      stateful_validateUpdate_run E s old dryRun w2]
  · rw [stateful_validateCreate_run E s dryRun w, stateful_validateCreate_run E s dryRun _]
  · rw [stateful_validateUpdate_run E s old dryRun w,
      stateful_validateUpdate_run E s old dryRun _]

/-- C17: best-effort logging. With any other serializer of the candidate for
the log record, one that fails included, `ValidateCreate` and `ValidateUpdate`
return the same result and make the same calls of the trigger validator: a
failed serialization yields no error and skips no validation. -/
theorem C17_log_serialization_irrelevant {Ctx Spec Status : Type}
    (E : Env Ctx Spec Status) (m : Option (ScaledJob Spec Status) → MarshalResult)
    (s : Option (ScaledJob Spec Status)) (old : RuntimeObject Spec Status)
    (dryRun : Option Bool) :
    ((ScaledJob.ValidateCreate (E.withLogSerializer m) s dryRun).result
          = (ScaledJob.ValidateCreate E s dryRun).result ∧
        validatorCalls (ScaledJob.ValidateCreate (E.withLogSerializer m) s dryRun).trace
          = validatorCalls (ScaledJob.ValidateCreate E s dryRun).trace) ∧
      ((ScaledJob.ValidateUpdate (E.withLogSerializer m) s old dryRun).result
          = (ScaledJob.ValidateUpdate E s old dryRun).result ∧
        validatorCalls (ScaledJob.ValidateUpdate (E.withLogSerializer m) s old dryRun).trace
          = validatorCalls (ScaledJob.ValidateUpdate E s old dryRun).trace) :=
  ⟨validateCreate_withLogSerializer E m s dryRun,
    validateUpdate_withLogSerializer E m s old dryRun⟩

/-! ## What the exemption reads, and its direction -/

/-- C18: the verdict of `isScaledJobRemovingFinalizer` is the same for any two
pairs of metadata with the same numbers of finalizers, given the same two
specifications. Hence an update from a previous object with any one finalizer
to a candidate with none and the same specification returns `(nil, nil)`
without a call of the trigger validator, whatever the names, namespaces,
labels, annotations and owner references of the two objects. -/
theorem C18_exemption_reads_counts_and_specs {Ctx Spec Status : Type}
    (E : Env Ctx Spec Status) (om1 oldOm1 om2 oldOm2 : ObjectMeta) (spec oldSpec : Spec)
    (tm tmOld : TypeMeta) (name ns nameOld nsOld finalizer : String)
    (labels annotations labelsOld annotationsOld : List (String × String))
    (owners ownersOld : List String) (st stOld : Status) (dryRun : Option Bool)
    (hcand : om1.Finalizers.length = om2.Finalizers.length)
    (hprev : oldOm1.Finalizers.length = oldOm2.Finalizers.length) :
    isScaledJobRemovingFinalizer E om1 oldOm1 spec oldSpec
        = isScaledJobRemovingFinalizer E om2 oldOm2 spec oldSpec ∧
      (ScaledJob.ValidateUpdate E
          (some ⟨tm, ⟨name, ns, labels, annotations, owners, []⟩, spec, st⟩)
          (.scaledJob (some ⟨tmOld,
            ⟨nameOld, nsOld, labelsOld, annotationsOld, ownersOld, [finalizer]⟩, spec, stOld⟩))
          dryRun).result = .ok (none, none) ∧
      validatorCalls (ScaledJob.ValidateUpdate E
          (some ⟨tm, ⟨name, ns, labels, annotations, owners, []⟩, spec, st⟩)
          (.scaledJob (some ⟨tmOld,
            ⟨nameOld, nsOld, labelsOld, annotationsOld, ownersOld, [finalizer]⟩, spec, stOld⟩))
          dryRun).trace = [] := by
  refine ⟨?_, ?_⟩
  · simp only [isScaledJobRemovingFinalizer, hcand, hprev]
  · have h := (isScaledJobRemovingFinalizer_eq_true_iff E
      ⟨name, ns, labels, annotations, owners, []⟩
      ⟨nameOld, nsOld, labelsOld, annotationsOld, ownersOld, [finalizer]⟩ spec spec).mpr
      ⟨rfl, rfl, rfl⟩
    rw [validateUpdate_of_exempt E
      ⟨tm, ⟨name, ns, labels, annotations, owners, []⟩, spec, st⟩
      ⟨tmOld, ⟨nameOld, nsOld, labelsOld, annotationsOld, ownersOld, [finalizer]⟩, spec, stOld⟩
      dryRun h]
    exact ⟨rfl, rfl⟩

/-- Witness of C18: two pairs of metadata that differ in everything but the
numbers of finalizers. -/
theorem C18_exemption_reads_counts_and_specs_witness :
    isScaledJobRemovingFinalizer Sample.env (Sample.meta [])
        (Sample.meta ["keda.sh/finalizer"]) Sample.cronSpec Sample.cronSpec
      = isScaledJobRemovingFinalizer Sample.env
        ⟨"other", "prod", [("team", "a")], [("note", "x")], ["owner"], []⟩
        ⟨"other", "prod", [], [], [], ["example.com/cleanup"]⟩
        Sample.cronSpec Sample.cronSpec :=
  (C18_exemption_reads_counts_and_specs Sample.env (Sample.meta [])
    (Sample.meta ["keda.sh/finalizer"])
    ⟨"other", "prod", [("team", "a")], [("note", "x")], ["owner"], []⟩
    ⟨"other", "prod", [], [], [], ["example.com/cleanup"]⟩
    Sample.cronSpec Sample.cronSpec ⟨"ScaledJob", "keda.sh/v1alpha1"⟩
    ⟨"ScaledJob", "keda.sh/v1alpha1"⟩ "worker" "jobs" "worker" "jobs" "example.com/cleanup"
    [("team", "a")] [] [] [] [] [] () () none rfl rfl).1

/-- C19: the exemption is directional. If `isScaledJobRemovingFinalizer` holds
with candidate `a` and previous `b`, it does not hold with candidate `b` and
previous `a`; it never holds when candidate and previous have the same
metadata; and the update operation of the dispatcher, called with
`(ctx, oldObj, newObj)`, evaluates it with `newObj` as candidate and `oldObj`
as previous: with old `b` and new `a` it returns `(nil, nil)` without a call
of the trigger validator, with old `a` and new `b` it calls the validator on
`b`. -/
theorem C19_exemption_directional {Ctx Spec Status : Type}
    (E : Env Ctx Spec Status) (ctx : Ctx) (d : Bool) (a b : ScaledJob Spec Status)
    (om : ObjectMeta) (spec oldSpec : Spec)
    (hctx : E.RequestFromContext ctx = .ok ⟨some d⟩)
    (h : isScaledJobRemovingFinalizer E a.ObjectMeta b.ObjectMeta a.Spec b.Spec = true) :
    isScaledJobRemovingFinalizer E b.ObjectMeta a.ObjectMeta b.Spec a.Spec = false ∧
      isScaledJobRemovingFinalizer E om om spec oldSpec = false ∧
      ScaledJobCustomValidator.ValidateUpdate E ctx (.scaledJob (some b)) (.scaledJob (some a))
        = ScaledJob.ValidateUpdate E (some a) (.scaledJob (some b)) (some d) ∧
      (ScaledJobCustomValidator.ValidateUpdate E ctx (.scaledJob (some b))
          (.scaledJob (some a))).result = .ok (none, none) ∧
      validatorCalls (ScaledJobCustomValidator.ValidateUpdate E ctx (.scaledJob (some b))
          (.scaledJob (some a))).trace = [] ∧
      validatorCalls (ScaledJobCustomValidator.ValidateUpdate E ctx (.scaledJob (some a))
          (.scaledJob (some b))).trace = [(some b, "update", d)] := by
  have hab := (isScaledJobRemovingFinalizer_eq_true_iff E _ _ _ _).mp h
  have hba : isScaledJobRemovingFinalizer E b.ObjectMeta a.ObjectMeta b.Spec a.Spec
      = false := by
    refine (isScaledJobRemovingFinalizer_eq_false_iff E _ _ _ _).mpr (fun hc => ?_)
    have h0 := hc.1
    rw [hab.2.1] at h0
    exact absurd h0 (by decide)
  have hsame : isScaledJobRemovingFinalizer E om om spec oldSpec = false := by
    refine (isScaledJobRemovingFinalizer_eq_false_iff E _ _ _ _).mpr (fun hc => ?_)
    have h1 := hc.2.1
    rw [hc.1] at h1
    exact absurd h1 (by decide)
  rw [dispatcher_validateUpdate_run E ctx ⟨some d⟩ (some b) (some a) hctx,
    dispatcher_validateUpdate_run E ctx ⟨some d⟩ (some a) (some b) hctx,
    validateUpdate_of_exempt E a b (some d) h, validateUpdate_of_not_exempt E b a d hba]
  exact ⟨hba, hsame, rfl, rfl, rfl, rfl⟩

/-- Witness of C19: `a` is the job without finalizer, `b` the job with the
finalizer `keda.sh/finalizer`. -/
theorem C19_exemption_directional_witness :
    isScaledJobRemovingFinalizer Sample.env
        (Sample.job ["keda.sh/finalizer"] Sample.cronSpec).ObjectMeta
        (Sample.job [] Sample.cronSpec).ObjectMeta
        (Sample.job ["keda.sh/finalizer"] Sample.cronSpec).Spec
        (Sample.job [] Sample.cronSpec).Spec = false ∧
      validatorCalls (ScaledJobCustomValidator.ValidateUpdate Sample.env (some ⟨some false⟩)
          (.scaledJob (some (Sample.job [] Sample.cronSpec)))
          (.scaledJob (some (Sample.job ["keda.sh/finalizer"] Sample.cronSpec)))).trace
        = [(some (Sample.job ["keda.sh/finalizer"] Sample.cronSpec), "update", false)] :=
  have h := C19_exemption_directional Sample.env (some ⟨some false⟩) false
    (Sample.job [] Sample.cronSpec) (Sample.job ["keda.sh/finalizer"] Sample.cronSpec)
    (Sample.meta []) Sample.cronSpec Sample.cronSpec rfl (by decide)
  ⟨h.1, h.2.2.2.2.2⟩

end Keda
